import Mathlib

/-!
Shallow embedding of `lib/EDSC/MLIREmitter.cpp` (the MLIR EDSC emitter):
a memoized lowering of symbolic expression trees to IR instructions.

The data model and every operation below are translated from the C++ source.
Helpers of the surrounding MLIR repository that the source calls but whose
definitions are not part of the analysed file (`Expr::build`,
`makeComposedAffineApply`, `FuncBuilder` primitives, `AffineForOp::createBody`,
`MLIREmitter::bindConstant`, `makeNewExprs`, `bindZipRange`) are modelled from
the specification and marked as such in their doc comments.
-/

namespace EDSC

/-- Result expression of the 1-D affine maps built by `add`/`sub`
(`d0 + d1` resp. `d0 - d1`). -/
inductive AffRes
  | d0PlusD1
  | d0MinusD1
deriving DecidableEq, Repr

/-- Operation names, as compared against
`DeallocOp/StoreOp/ReturnOp::getOperationName()` in `emitStmt`. -/
inductive OpName
  | dealloc
  | store
  | ret
  | otherOp (tag : Nat)
deriving DecidableEq, Repr

/-- The kind of an emitted IR instruction. -/
inductive InstKind
  | constantIndex (k : Int)
  | affineApply (res : AffRes)
  | affineForConst (lb ub step : Int)
  | affineForSym (step : Int)
  | dim (pos : Nat)
  | addi
  | subi
  | muli
  | addf
  | subf
  | mulf
  | generic (name : OpName)
deriving DecidableEq, Repr

/-- Summary of a value's defining instruction, as queried by
`getDefiningInst()` in the bounded-loop provenance checks.  `none` (at the
`Value` level) models a value with no defining instruction, i.e. a function
or block argument. -/
inductive DefKind
  | constantIndex (k : Int)
  | affineApply
  | affineFor (body : Nat)
  | dimOf (pos : Nat)
  | otherInst
deriving DecidableEq, Repr

/-- MLIR types as far as the emitter inspects them: `index`, integers,
floats, vectors and memrefs (with a shape whose negative entries mark
dynamic dimensions, cf. `isDynamicSize`). -/
inductive MLType
  | index
  | int (w : Nat)
  | float (w : Nat)
  | vector (elem : MLType)
  | memref (shape : List Int) (elem : MLType)
deriving DecidableEq, Repr

/-- An SSA value: identity, type, and defining-instruction summary
(`none` = function/block argument). -/
structure Value where
  vid : Nat
  ty : MLType
  dk : Option DefKind
deriving DecidableEq, Repr

/-- An emitted IR instruction. -/
structure Inst where
  iid : Nat
  kind : InstKind
  operands : List Nat
  result : Option Value
deriving DecidableEq, Repr

/-- An IR block: its argument values and its instruction list. -/
structure BlockData where
  args : List Value
  insts : List Inst
deriving DecidableEq, Repr

/-- The emitter state: the IR blocks built so far, the builder's insertion
cursor (a block id and, optionally, the id of the instruction before which
to insert; `none` = end of block), the two binding tables (`ssaBindings`
maps a node's storage identity to the nullable `Value*` recorded for it,
`blockBindings` maps a statement block's identity to its IR block), and a
fresh-id counter standing in for fresh storage allocation. -/
structure EmitterState where
  blocks : List (Nat × BlockData)
  cursorBlock : Nat
  cursorIp : Option Nat
  ssaBindings : List (Nat × Option Value)
  blockBindings : List (Nat × Nat)
  nextId : Nat
deriving DecidableEq, Repr

/-- A symbolic expression node.  `bindable` is an `Unbound` placeholder;
`opE` covers the `Unary/Binary/Ternary/Variadic` operator kinds (which the
source treats uniformly through `Expr::build`); `forE` is the
`StmtBlockLikeExpr` of kind `For`; `blockLikeOther` any other
`StmtBlockLikeExpr`.  The `Nat` is the node's interned storage identity. -/
inductive Expr
  | bindable (id : Nat) (ty : MLType)
  | opE (id : Nat) (name : OpName) (args : List Expr)
  | forE (id : Nat) (lb ub step : Expr)
  | blockLikeOther (id : Nat)
deriving Repr

/-- A statement: LHS node, RHS expression, and enclosed body statements. -/
inductive Stmt
  | mk (lhs : Expr) (rhs : Expr) (enclosed : List Stmt)
deriving Repr

/-- A statement block: identity, declared argument nodes with their types,
and a statement body. -/
structure StmtBlock where
  sbid : Nat
  args : List Expr
  argTypes : List MLType
  body : List Stmt
deriving Repr

/-- Storage identity of a node (two handles are equal iff they denote the
same storage). -/
def Expr.eid : Expr → Nat
  | .bindable i _ => i
  | .opE i _ _ => i
  | .forE i _ _ _ => i
  | .blockLikeOther i => i

/-- `getName()` of the node's operation, when it is an operator node. -/
def Expr.opName : Expr → Option OpName
  | .opE _ n _ => some n
  | _ => none

/-- Whether the node's kind is `Unbound` (a placeholder). -/
def Expr.isUnboundKind : Expr → Bool
  | .bindable _ _ => true
  | _ => false

/-- Whether the node is a `StmtBlockLikeExpr` of kind `For`. -/
def Expr.isForKind : Expr → Bool
  | .forE _ _ _ _ => true
  | _ => false

/-- Association-list lookup keyed on `Nat` identities. -/
def alookup {α : Type} : List (Nat × α) → Nat → Option α
  | [], _ => none
  | (k, v) :: rest, key => if k = key then some v else alookup rest key

/-- `DenseMap::insert` as used at the two fatal call sites (`bind` and the
memo insertion at the end of `emitExpr`): if the key is present the insert
does not happen and the caller treats it as a fatal error (`none`);
otherwise the pair is recorded. -/
def insertBinding (s : EmitterState) (k : Nat) (v : Option Value) :
    Option EmitterState :=
  match alookup s.ssaBindings k with
  | some _ => none
  | none => some { s with ssaBindings := (k, v) :: s.ssaBindings }

/-- Fetch a block by id. -/
def getBlock (s : EmitterState) (bid : Nat) : Option BlockData :=
  alookup s.blocks bid

/-- Update the first block with the given id. -/
def updateBlocks : List (Nat × BlockData) → Nat → (BlockData → BlockData) →
    List (Nat × BlockData)
  | [], _, _ => []
  | (k, bd) :: rest, bid, f =>
    if k = bid then (k, f bd) :: rest else (k, bd) :: updateBlocks rest bid f

/-- Insert an instruction before the instruction with the given id
(appending at the end if it is not found). -/
def insertBeforeIid : List Inst → Nat → Inst → List Inst
  | [], _, inst => [inst]
  | i :: rest, tid, inst =>
    if i.iid = tid then inst :: i :: rest else i :: insertBeforeIid rest tid inst

/-- Insert an instruction at an insertion point within a block's list
(`none` = append at the end).  Mirrors `Block::getInstructions().insert`:
the iterator designating the insertion point is not advanced, so the
builder's cursor is untouched by instruction creation. -/
def insertAtIp (insts : List Inst) (ip : Option Nat) (inst : Inst) : List Inst :=
  match ip with
  | none => insts ++ [inst]
  | some tid => insertBeforeIid insts tid inst

/-- Add an instruction at the current cursor.  Modelled from the spec: the
IR builder's create-instruction primitive inserts at the insertion point
and leaves the cursor unchanged. -/
def addInst (s : EmitterState) (inst : Inst) : EmitterState :=
  let upd := fun bd => { bd with insts := insertAtIp bd.insts s.cursorIp inst }
  { s with blocks := updateBlocks s.blocks s.cursorBlock upd }

/-- Create a one-result instruction at the cursor (`builder->create<...>`),
minting a fresh instruction id and a fresh result value. -/
def createOpV (s : EmitterState) (k : InstKind) (ops : List Nat) (ty : MLType)
    (dk : Option DefKind) : Value × EmitterState :=
  let v : Value := ⟨s.nextId + 1, ty, dk⟩
  let inst : Inst := ⟨s.nextId, k, ops, some v⟩
  (v, { addInst s inst with nextId := s.nextId + 2 })

/-- Create a zero-result instruction at the cursor. -/
def createOpZ (s : EmitterState) (k : InstKind) (ops : List Nat) :
    EmitterState :=
  let inst : Inst := ⟨s.nextId, k, ops, none⟩
  { addInst s inst with nextId := s.nextId + 1 }

/-- `builder->createBlock()`. Modelled from the spec: creates a fresh IR
block and moves the insertion cursor to it. -/
def createBlock (s : EmitterState) : Nat × EmitterState :=
  let bid := s.nextId
  (bid, { s with blocks := s.blocks ++ [(bid, ⟨[], []⟩)],
                 cursorBlock := bid, cursorIp := none,
                 nextId := s.nextId + 1 })

/-- `irBlock->addArgument(type)`. Modelled from the spec: appends a fresh
argument value to the block. -/
def addArgument (s : EmitterState) (bid : Nat) (ty : MLType) :
    Value × EmitterState :=
  let v : Value := ⟨s.nextId, ty, none⟩
  let upd := fun bd => { bd with args := bd.args ++ [v] }
  (v, { s with blocks := updateBlocks s.blocks bid upd, nextId := s.nextId + 1 })

/-- `forOp->createBody()`. Modelled from the spec: creates the loop's empty
body region; it does not touch the emitter's builder cursor. -/
def createBody (s : EmitterState) (bid : Nat) : EmitterState :=
  { s with blocks := s.blocks ++ [(bid, ⟨[], []⟩)] }

/-- `builder->setInsertionPointToStart(block)`. -/
def setToStart (s : EmitterState) (bid : Nat) : EmitterState :=
  let ipN := match getBlock s bid with
    | some bd => bd.insts.head?.map Inst.iid
    | none => none
  { s with cursorBlock := bid, cursorIp := ipN }

/-- `getElementType`: the element type if the value's type is a vector or
memref, the type itself otherwise. -/
def getElementType (v : Value) : MLType :=
  match v.ty with
  | .vector t => t
  | .memref _ t => t
  | t => t

/-- `isIndexElement`. -/
def isIndexElement (v : Value) : Bool :=
  match getElementType v with
  | .index => true
  | _ => false

/-- `isIntElement`. -/
def isIntElement (v : Value) : Bool :=
  match getElementType v with
  | .int _ => true
  | _ => false

/-- `isFloatElement`. -/
def isFloatElement (v : Value) : Bool :=
  match getElementType v with
  | .float _ => true
  | _ => false

/-- Modelled from the spec: `makeComposedAffineApply` (an affine-analysis
helper outside the analysed file) materializes a single affine-apply
instruction whose map has the given result expression, composed against the
operand values. -/
def makeComposedAffineApply (s : EmitterState) (res : AffRes) (ops : List Nat) :
    Value × EmitterState :=
  createOpV s (InstKind.affineApply res) ops MLType.index
    (some DefKind.affineApply)

/-- `add`: index-element operands lower to a composed affine apply with map
`(d0, d1) -> d0 + d1`; integer-element operands to `AddIOp`; otherwise the
source asserts the element is a float and lowers to `AddFOp` (assertion
failure modelled as `none`). -/
def add (s : EmitterState) (a b : Value) : Option (Value × EmitterState) :=
  if isIndexElement a then
    some (makeComposedAffineApply s AffRes.d0PlusD1 [a.vid, b.vid])
  else if isIntElement a then
    some (createOpV s InstKind.addi [a.vid, b.vid] a.ty (some DefKind.otherInst))
  else if isFloatElement a then
    some (createOpV s InstKind.addf [a.vid, b.vid] a.ty (some DefKind.otherInst))
  else none

/-- `sub`: as `add` but with map `(d0, d1) -> d0 - d1`, `SubIOp`, `SubFOp`. -/
def sub (s : EmitterState) (a b : Value) : Option (Value × EmitterState) :=
  if isIndexElement a then
    some (makeComposedAffineApply s AffRes.d0MinusD1 [a.vid, b.vid])
  else if isIntElement a then
    some (createOpV s InstKind.subi [a.vid, b.vid] a.ty (some DefKind.otherInst))
  else if isFloatElement a then
    some (createOpV s InstKind.subf [a.vid, b.vid] a.ty (some DefKind.otherInst))
  else none

/-- `mul`: non-float-element operands lower to `MulIOp`, float-element
operands to `MulFOp`; never an affine form. -/
def mul (s : EmitterState) (a b : Value) : Value × EmitterState :=
  if !isFloatElement a then
    createOpV s InstKind.muli [a.vid, b.vid] a.ty (some DefKind.otherInst)
  else
    createOpV s InstKind.mulf [a.vid, b.vid] a.ty (some DefKind.otherInst)

/-- `MLIREmitter::bind`: inserts `(node → value)` into the binding table;
a second bind of the same node hits `llvm_unreachable("Double binding!")`,
modelled as the fatal result `none`.  `bind` performs no IR mutation: it
only touches `ssaBindings`. -/
def bind (s : EmitterState) (k : Nat) (v : Value) : Option EmitterState :=
  insertBinding s k (some v)

/-- The zero-result allow-list of `emitStmt`
(`DeallocOp/StoreOp/ReturnOp::getOperationName()`), also used by the
spec-modelled build contract for zero-result operations. -/
def zeroResultName (n : OpName) : Bool :=
  match n with
  | .dealloc => true
  | .store => true
  | .ret => true
  | _ => false

/-- Whether a value's defining instruction gives it affine provenance, as
checked by the two bound asserts in the `For` branch of `emitExpr`:
no defining instruction (function argument, accepted by the source),
`ConstantIndexOp`, `AffineApplyOp`, or `AffineForOp`. -/
def affineProvenance (v : Value) : Bool :=
  match v.dk with
  | none => true
  | some (DefKind.constantIndex _) => true
  | some DefKind.affineApply => true
  | some (DefKind.affineFor _) => true
  | some _ => false

mutual

/-- `MLIREmitter::emitExpr`.  Fatal assertion failures return `none`; a
returned `some (r, s)` carries the (nullable) `Value*` result `r` and the
updated state.  The operator-application branch inlines the node's build
contract (`Expr::build`, outside the analysed file), modelled from the
spec: operands are materialized recursively through the same memoized
mechanism; all-operands-bound applications produce one result (or zero for
the dealloc/store/return kinds); a missing operand binding yields a single
null result, which takes the diagnostic error path and records nothing. -/
def emitExpr (s : EmitterState) (e : Expr) : Option (Option Value × EmitterState) :=
  match alookup s.ssaBindings e.eid with
  | some b => some (b, s)
  | none =>
    match e with
    | .bindable _ _ => some (none, s)
    | .blockLikeOther _ => some (none, s)
    | .opE i n args =>
      match emitExprList s args with
      | none => none
      | some (vals, s1) =>
        if vals.all Option.isSome then
          if zeroResultName n then
            let s1b := createOpZ s1 (InstKind.generic n)
              ((vals.filterMap id).map Value.vid)
            match insertBinding s1b i none with
            | none => none
            | some s2 => some (none, s2)
          else
            let opVals := vals.filterMap id
            let ty := (opVals.head?.map Value.ty).getD MLType.index
            let vs2 := createOpV s1 (InstKind.generic n)
              (opVals.map Value.vid) ty (some DefKind.otherInst)
            match insertBinding vs2.2 i (some vs2.1) with
            | none => none
            | some s3 => some (some vs2.1, s3)
        else
          some (none, s1)
    | .forE i lb ub step =>
      match emitExpr s lb with
      | none => none
      | some (vlbO, s1) =>
        match emitExpr s1 ub with
        | none => none
        | some (vubO, s2) =>
          match emitExpr s2 step with
          | none => none
          | some (vstO, s3) =>
            match vlbO, vubO, vstO with
            | some vlb, some vub, some vst =>
              if affineProvenance vlb then
                if affineProvenance vub then
                  match vst.dk with
                  | some (DefKind.constantIndex k) =>
                    let instKind :=
                      match vlb.dk, vub.dk with
                      | some (DefKind.constantIndex l),
                        some (DefKind.constantIndex u) =>
                          InstKind.affineForConst l u k
                      | _, _ => InstKind.affineForSym k
                    let ops :=
                      match vlb.dk, vub.dk with
                      | some (DefKind.constantIndex _),
                        some (DefKind.constantIndex _) => ([] : List Nat)
                      | _, _ => [vlb.vid, vub.vid]
                    let bodyBid := s3.nextId + 2
                    let ivar : Value :=
                      ⟨s3.nextId + 1, MLType.index,
                        some (DefKind.affineFor bodyBid)⟩
                    let inst : Inst := ⟨s3.nextId, instKind, ops, some ivar⟩
                    let s4 := createBody (addInst s3 inst) bodyBid
                    let s5 := { s4 with nextId := s3.nextId + 3 }
                    match insertBinding s5 i (some ivar) with
                    | none => none
                    | some s6 => some (some ivar, s6)
                  | _ => none
                else none
              else none
            | _, _, _ => some (none, s3)

/-- `MLIREmitter::emitExprs`: emit each expression in order, collecting the
(nullable) results. -/
def emitExprList (s : EmitterState) (es : List Expr) :
    Option (List (Option Value) × EmitterState) :=
  match es with
  | [] => some ([], s)
  | e :: rest =>
    match emitExpr s e with
    | none => none
    | some (v, s1) =>
      match emitExprList s1 rest with
      | none => none
      | some (vs, s2) => some (v :: vs, s2)

end

mutual

/-- `MLIREmitter::emitStmt`: save the cursor; emit the RHS; on a null
result, assert the RHS operation is dealloc/store/return and return; else
bind the LHS to the value, step into the loop body if the RHS is a `For`,
emit the enclosed statements, and restore the saved cursor. -/
def emitStmt (s : EmitterState) (st : Stmt) : Option EmitterState :=
  match st with
  | .mk lhs rhs enclosed =>
    let blk := s.cursorBlock
    let ip := s.cursorIp
    match emitExpr s rhs with
    | none => none
    | some (none, s1) =>
      match rhs.opName with
      | some n => if zeroResultName n then some s1 else none
      | none => none
    | some (some v, s1) =>
      match bind s1 lhs.eid v with
      | none => none
      | some s2 =>
        if rhs.isForKind then
          match v.dk with
          | some (DefKind.affineFor bodyBid) =>
            match emitStmts (setToStart s2 bodyBid) enclosed with
            | none => none
            | some s4 => some { s4 with cursorBlock := blk, cursorIp := ip }
          | _ => none
        else
          match emitStmts s2 enclosed with
          | none => none
          | some s4 => some { s4 with cursorBlock := blk, cursorIp := ip }

/-- `MLIREmitter::emitStmts`: emit a statement sequence in order. -/
def emitStmts (s : EmitterState) (sts : List Stmt) : Option EmitterState :=
  match sts with
  | [] => some s
  | st :: rest =>
    match emitStmt s st with
    | none => none
    | some s1 => emitStmts s1 rest

end

/-- The block-argument loop of `emitBlock`: for each (argument node, type)
pair of the zipped ranges, assert the node's kind is `Unbound` and bind it
to a freshly added IR block argument. -/
def bindBlockArgs (s : EmitterState) (irBid : Nat) :
    List Expr → List MLType → Option EmitterState
  | a :: as_, t :: ts =>
    if a.isUnboundKind then
      let vs1 := addArgument s irBid t
      match bind vs1.2 a.eid vs1.1 with
      | none => none
      | some s2 => bindBlockArgs s2 irBid as_ ts
    else none
  | _, _ => some s

/-- `MLIREmitter::emitBlock`: no-op if the block identity is already
recorded; otherwise save the cursor, create a new IR block (which moves the
cursor into it), record it, bind the declared argument nodes to the IR
block's arguments in positional order, emit the body, restore the cursor. -/
def emitBlock (s : EmitterState) (blk : StmtBlock) : Option EmitterState :=
  if (alookup s.blockBindings blk.sbid).isSome then some s
  else
    let prevB := s.cursorBlock
    let prevI := s.cursorIp
    let irBid := (createBlock s).1
    let s1 := (createBlock s).2
    let s2 := { s1 with blockBindings := (blk.sbid, irBid) :: s1.blockBindings }
    match bindBlockArgs s2 irBid blk.args blk.argTypes with
    | none => none
    | some s3 =>
      match emitStmts s3 blk.body with
      | none => none
      | some s4 => some { s4 with cursorBlock := prevB, cursorIp := prevI }

/-- `isDynamicSize`: negative shape entries mark dynamic dimensions. -/
def isDynamicSize (k : Int) : Bool := k < 0

/-- The loop body of `getMemRefSizes`: for each shape entry, emit a `DimOp`
(dynamic) or `ConstantIndexOp` (static) at the cursor, in ascending
dimension order. -/
def getMemRefSizesGo (s : EmitterState) (memRefVid : Nat) (idx : Nat) :
    List Int → List Value × EmitterState
  | [] => ([], s)
  | d :: rest =>
    let vs1 :=
      if isDynamicSize d then
        createOpV s (InstKind.dim idx) [memRefVid] MLType.index
          (some (DefKind.dimOf idx))
      else
        createOpV s (InstKind.constantIndex d) [] MLType.index
          (some (DefKind.constantIndex d))
    let rec2 := getMemRefSizesGo vs1.2 memRefVid (idx + 1) rest
    (vs1.1 :: rec2.1, rec2.2)

/-- `getMemRefSizes`: asserts the value is a memref and emits one size
value per dimension. -/
def getMemRefSizes (s : EmitterState) (memRef : Value) :
    Option (List Value × EmitterState) :=
  match memRef.ty with
  | .memref shape _ => some (getMemRefSizesGo s memRef.vid 0 shape)
  | _ => none

/-- Modelled from the spec: fresh placeholder creation (`Expr b(type)`,
whose storage allocation is outside the analysed file) mints a node with a
fresh storage identity. -/
def newExpr (s : EmitterState) (ty : MLType) : Expr × EmitterState :=
  (Expr.bindable s.nextId ty, { s with nextId := s.nextId + 1 })

/-- Modelled from the spec: `makeNewExprs(n, type)` (outside the analysed
file) mints `n` fresh placeholder nodes. -/
def makeNewExprs (s : EmitterState) (n : Nat) (ty : MLType) :
    List Expr × EmitterState :=
  match n with
  | 0 => ([], s)
  | Nat.succ m =>
    let es1 := newExpr s ty
    let rec2 := makeNewExprs es1.2 m ty
    (es1.1 :: rec2.1, rec2.2)

/-- Modelled from the spec: `bindConstant<ConstantIndexOp>(b, k)` (declared
in the emitter's header, outside the analysed file) materializes the index
constant at the cursor and binds the node to it. -/
def bindConstantIndex (s : EmitterState) (e : Expr) (k : Int) :
    Option EmitterState :=
  let vs1 := createOpV s (InstKind.constantIndex k) [] MLType.index
    (some (DefKind.constantIndex k))
  bind vs1.2 e.eid vs1.1

/-- Modelled from the spec: `bindZipRange` (outside the analysed file)
binds each node of the first range to the matching value of the second. -/
def bindZipRange (s : EmitterState) : List Expr → List Value →
    Option EmitterState
  | e :: es, v :: vs =>
    match bind s e.eid v with
    | none => none
    | some s1 => bindZipRange s1 es vs
  | _, _ => some s

/-- `MLIREmitter::makeBoundMemRefShape`: mint one fresh node per dimension,
emit the size values, and bind them pairwise. -/
def makeBoundMemRefShape (s : EmitterState) (memRef : Value) :
    Option (List Expr × EmitterState) :=
  match memRef.ty with
  | .memref shape _ =>
    let es := (makeNewExprs s shape.length MLType.index).1
    let s1 := (makeNewExprs s shape.length MLType.index).2
    match getMemRefSizes s1 memRef with
    | none => none
    | some (vs, s2) =>
      if es.length = vs.length then
        match bindZipRange s2 es vs with
        | none => none
        | some s3 => some (es, s3)
      else none
  | _ => none

/-- `MLIREmitter::makeBoundMemRefView`: lower bounds are rank copies of a
fresh node bound to the constant 0, upper bounds come from
`makeBoundMemRefShape`, steps are rank copies of a fresh node bound to the
constant 1. -/
def makeBoundMemRefView (s : EmitterState) (memRef : Value) :
    Option ((List Expr × List Expr × List Expr) × EmitterState) :=
  match memRef.ty with
  | .memref shape _ =>
    let rank := shape.length
    let zeroE := (newExpr s MLType.index).1
    let s1 := (newExpr s MLType.index).2
    match bindConstantIndex s1 zeroE 0 with
    | none => none
    | some s2 =>
      let lbs := List.replicate rank zeroE
      match makeBoundMemRefShape s2 memRef with
      | none => none
      | some (ubs, s3) =>
        let oneE := (newExpr s3 MLType.index).1
        let s4 := (newExpr s3 MLType.index).2
        match bindConstantIndex s4 oneE 1 with
        | none => none
        | some s5 => some ((lbs, ubs, List.replicate rank oneE), s5)
  | _ => none


/-- The instruction list of the block the cursor points into (the
observable order of emitted instructions). -/
def cursorInsts (s : EmitterState) : List Inst :=
  match getBlock s s.cursorBlock with
  | some bd => bd.insts
  | none => []

/-- The fresh argument values a run of the block-argument loop appends to
the IR block, in positional order. -/
def mkArgVals (n0 : Nat) : List MLType → List Value
  | [] => []
  | t :: ts => ⟨n0, t, none⟩ :: mkArgVals (n0 + 1) ts

/-- Freshness invariant: every key recorded in the binding table is below
the fresh-id counter. -/
def keysBelow (s : EmitterState) : Prop :=
  ∀ p ∈ s.ssaBindings, p.1 < s.nextId

/-! ### Concrete inputs used by witnesses and counterexamples -/

/-- A 32-bit-integer function-argument value. -/
def exIntArg : Value := ⟨100, MLType.int 32, none⟩

/-- One empty block, cursor at its end, placeholder 1 bound to `exIntArg`. -/
def exOpState : EmitterState :=
  ⟨[(0, ⟨[], []⟩)], 0, none, [(1, some exIntArg)], [], 200⟩

/-- A one-operand generic operator node over placeholder 1. -/
def exOpExpr : Expr := Expr.opE 2 (OpName.otherOp 7) [Expr.bindable 1 (MLType.int 32)]

/-- The value materialized for `exOpExpr`. -/
def exOpVal : Value := ⟨201, MLType.int 32, some DefKind.otherInst⟩

/-- The state after emitting `exOpExpr` from `exOpState`. -/
def exOpAfter : EmitterState :=
  ⟨[(0, ⟨[], [⟨200, InstKind.generic (OpName.otherOp 7), [100], some exOpVal⟩]⟩)],
   0, none, [(2, some exOpVal), (1, some exIntArg)], [], 202⟩

/-- Bindings for loop bounds: placeholder 1 ↦ constant 0, 2 ↦ constant 10,
3 ↦ constant 1. -/
def exLoopState : EmitterState :=
  ⟨[(0, ⟨[], []⟩)], 0, none,
   [(1, some ⟨100, MLType.index, some (DefKind.constantIndex 0)⟩),
    (2, some ⟨101, MLType.index, some (DefKind.constantIndex 10)⟩),
    (3, some ⟨102, MLType.index, some (DefKind.constantIndex 1)⟩)],
   [], 200⟩

/-- A bounded-loop node over the three bound placeholders. -/
def exForExpr : Expr := Expr.forE 4 (Expr.bindable 1 MLType.index)
  (Expr.bindable 2 MLType.index) (Expr.bindable 3 MLType.index)

/-- An inner statement whose RHS is a second bounded loop over the same
bound placeholders. -/
def exInnerStmt : Stmt := Stmt.mk (Expr.bindable 6 MLType.index)
  (Expr.forE 5 (Expr.bindable 1 MLType.index) (Expr.bindable 2 MLType.index)
    (Expr.bindable 3 MLType.index)) []

/-- A statement with a loop RHS and a nested loop statement in its body. -/
def exNestedStmt : Stmt := Stmt.mk (Expr.bindable 7 MLType.index)
  (Expr.forE 4 (Expr.bindable 1 MLType.index) (Expr.bindable 2 MLType.index)
    (Expr.bindable 3 MLType.index)) [exInnerStmt]

/-- Induction variable of the outer loop of `exNestedStmt`. -/
def exIvarOuter : Value := ⟨201, MLType.index, some (DefKind.affineFor 202)⟩

/-- Induction variable of the inner loop of `exNestedStmt`. -/
def exIvarInner : Value := ⟨204, MLType.index, some (DefKind.affineFor 205)⟩

/-- The state after `emitStmt exLoopState exNestedStmt`: the outer loop in
block 0, the inner loop inside the outer body block 202, and the cursor
restored to the end of block 0. -/
def exNestedAfter : EmitterState :=
  ⟨[(0, ⟨[], [⟨200, InstKind.affineForConst 0 10 1, [], some exIvarOuter⟩]⟩),
    (202, ⟨[], [⟨203, InstKind.affineForConst 0 10 1, [], some exIvarInner⟩]⟩),
    (205, ⟨[], []⟩)],
   0, none,
   [(6, some exIvarInner), (5, some exIvarInner),
    (7, some exIvarOuter), (4, some exIvarOuter),
    (1, some ⟨100, MLType.index, some (DefKind.constantIndex 0)⟩),
    (2, some ⟨101, MLType.index, some (DefKind.constantIndex 10)⟩),
    (3, some ⟨102, MLType.index, some (DefKind.constantIndex 1)⟩)],
   [], 206⟩

/-- Placeholder 1 bound to a memref argument, 2 to a float argument. -/
def exStoreState : EmitterState :=
  ⟨[(0, ⟨[], []⟩)], 0, none,
   [(1, some ⟨100, MLType.memref [4] (MLType.float 32), none⟩),
    (2, some ⟨101, MLType.float 32, none⟩)],
   [], 200⟩

/-- A zero-result store node over the two bound placeholders. -/
def exStoreExpr : Expr := Expr.opE 3 OpName.store
  [Expr.bindable 2 (MLType.float 32),
   Expr.bindable 1 (MLType.memref [4] (MLType.float 32))]

/-- The state after emitting `exStoreExpr`: the store instruction is in the
block and node 3 is recorded as producing no value. -/
def exStoreAfter : EmitterState :=
  ⟨[(0, ⟨[], [⟨200, InstKind.generic OpName.store, [101, 100], none⟩]⟩)],
   0, none,
   [(3, none),
    (1, some ⟨100, MLType.memref [4] (MLType.float 32), none⟩),
    (2, some ⟨101, MLType.float 32, none⟩)],
   [], 201⟩

/-- Loop-bound bindings where the lower bound is a function argument (a
value with no defining instruction): 1 ↦ argument, 2 ↦ constant 10,
3 ↦ constant 1. -/
def exArgBoundState : EmitterState :=
  ⟨[(0, ⟨[], []⟩)], 0, none,
   [(1, some ⟨100, MLType.index, none⟩),
    (2, some ⟨101, MLType.index, some (DefKind.constantIndex 10)⟩),
    (3, some ⟨102, MLType.index, some (DefKind.constantIndex 1)⟩)],
   [], 200⟩

/-- The state after emitting `exForExpr` from `exArgBoundState`: the
general symbolic-bound loop form over operands 100 and 101. -/
def exArgBoundAfter : EmitterState :=
  ⟨[(0, ⟨[], [⟨200, InstKind.affineForSym 1, [100, 101], some exIvarOuter⟩]⟩),
    (202, ⟨[], []⟩)],
   0, none,
   [(4, some exIvarOuter),
    (1, some ⟨100, MLType.index, none⟩),
    (2, some ⟨101, MLType.index, some (DefKind.constantIndex 10)⟩),
    (3, some ⟨102, MLType.index, some (DefKind.constantIndex 1)⟩)],
   [], 203⟩

/-- A tiny state for block emission: one empty block, no bindings. -/
def exBlockState : EmitterState := ⟨[(0, ⟨[], []⟩)], 0, none, [], [], 10⟩

/-- A statement block with two placeholder arguments and an empty body. -/
def exBlock : StmtBlock := ⟨77, [Expr.bindable 1 MLType.index,
  Expr.bindable 2 (MLType.float 32)], [MLType.index, MLType.float 32], []⟩

/-- The state after `emitBlock exBlockState exBlock`: IR block 10 with the
two fresh argument values, arguments bound positionally, identity 77
recorded, cursor restored. -/
def exBlockAfter : EmitterState :=
  ⟨[(0, ⟨[], []⟩),
    (10, ⟨[⟨11, MLType.index, none⟩, ⟨12, MLType.float 32, none⟩], []⟩)],
   0, none,
   [(2, some ⟨12, MLType.float 32, none⟩),
    (1, some ⟨11, MLType.index, none⟩)],
   [(77, 10)], 13⟩

/-- One empty block, cursor at its end, empty binding table. -/
def exViewState : EmitterState := ⟨[(0, ⟨[], []⟩)], 0, none, [], [], 50⟩

/-- A rank-3 memref function argument of shape `(?, 4, ?)`: dynamic first
and third dimensions (negative sentinels), static middle dimension. -/
def exViewMemRef : Value := ⟨100, MLType.memref [-1, 4, -1] (MLType.float 32),
  none⟩

/-! ### Basic lemmas about the state primitives -/


theorem alookup_cons {α : Type} (k : Nat) (v : α) (l : List (Nat × α))
    (key : Nat) :
    alookup ((k, v) :: l) key = if k = key then some v else alookup l key :=
  rfl

theorem alookup_append {α : Type} (l m : List (Nat × α)) (key : Nat) :
    alookup (l ++ m) key =
      match alookup l key with
      | some x => some x
      | none => alookup m key := by
  induction l with
  | nil => simp [alookup]
  | cons p rest ih =>
    obtain ⟨k, v⟩ := p
    by_cases hk : k = key
    · simp [alookup, hk]
    · simp [alookup, hk, ih]

theorem alookup_updateBlocks (l : List (Nat × BlockData)) (bid : Nat)
    (f : BlockData → BlockData) (key : Nat) :
    alookup (updateBlocks l bid f) key =
      if bid = key then (alookup l key).map f else alookup l key := by
  induction l with
  | nil => by_cases h : bid = key <;> simp [updateBlocks, alookup, h]
  | cons p rest ih =>
    obtain ⟨k, v⟩ := p
    by_cases hb : k = bid
    · subst hb
      by_cases hk : k = key
      · subst hk; simp [updateBlocks, alookup]
      · simp [updateBlocks, alookup_cons, hk]
    · simp only [updateBlocks, if_neg hb, alookup_cons, ih]
      by_cases hk : k = key
      · subst hk
        have hbk : ¬ bid = k := fun h => hb h.symm
        simp [hbk]
      · simp [hk]

theorem insertBinding_some (s : EmitterState) (k : Nat) (v : Option Value)
    (s' : EmitterState) (h : insertBinding s k v = some s') :
    alookup s.ssaBindings k = none ∧
    s' = { s with ssaBindings := (k, v) :: s.ssaBindings } := by
  unfold insertBinding at h
  split at h
  · exact absurd h (by simp)
  · exact ⟨by assumption, (Option.some.inj h).symm⟩

theorem insertBinding_none (s : EmitterState) (k : Nat) (v : Option Value)
    (h : insertBinding s k v = none) :
    (alookup s.ssaBindings k).isSome := by
  unfold insertBinding at h
  split at h
  · simp [*]
  · exact absurd h (by simp)

/-- The non-cursor state components that every emission step preserves:
the block-binding table never shrinks (in fact `emitExpr`/`emitStmt` leave
it unchanged), recorded SSA bindings are never overwritten, and existing
blocks keep their identity and argument lists. -/
def CorePres (s s' : EmitterState) : Prop :=
  s'.blockBindings = s.blockBindings ∧
  (∀ k b, alookup s.ssaBindings k = some b → alookup s'.ssaBindings k = some b) ∧
  (∀ bid bd, alookup s.blocks bid = some bd →
    ∃ bd', alookup s'.blocks bid = some bd' ∧ bd'.args = bd.args)

theorem corePres_refl (s : EmitterState) : CorePres s s :=
  ⟨rfl, fun _ _ h => h, fun _ bd h => ⟨bd, h, rfl⟩⟩

theorem corePres_trans {s1 s2 s3 : EmitterState}
    (h12 : CorePres s1 s2) (h23 : CorePres s2 s3) : CorePres s1 s3 := by
  obtain ⟨a12, b12, c12⟩ := h12
  obtain ⟨a23, b23, c23⟩ := h23
  refine ⟨a23.trans a12, fun k b h => b23 k b (b12 k b h), fun bid bd h => ?_⟩
  obtain ⟨bd', h', e'⟩ := c12 bid bd h
  obtain ⟨bd'', h'', e''⟩ := c23 bid bd' h'
  exact ⟨bd'', h'', e''.trans e'⟩

/-- Cursor-preserving core-preserving step (what `emitExpr` guarantees). -/
def EPres (s s' : EmitterState) : Prop :=
  s'.cursorBlock = s.cursorBlock ∧ s'.cursorIp = s.cursorIp ∧ CorePres s s'

theorem ePres_refl (s : EmitterState) : EPres s s :=
  ⟨rfl, rfl, corePres_refl s⟩

theorem ePres_trans {s1 s2 s3 : EmitterState}
    (h12 : EPres s1 s2) (h23 : EPres s2 s3) : EPres s1 s3 :=
  ⟨h23.1.trans h12.1, h23.2.1.trans h12.2.1, corePres_trans h12.2.2 h23.2.2⟩

theorem insertBinding_pres (s : EmitterState) (k : Nat) (v : Option Value)
    (s' : EmitterState) (h : insertBinding s k v = some s') : EPres s s' := by
  obtain ⟨hop, rfl⟩ := insertBinding_some s k v s' h
  refine ⟨rfl, rfl, rfl, fun k' b hb => ?_, fun bid bd hb => ⟨bd, hb, rfl⟩⟩
  have hne : ¬ k = k' := fun he => by rw [he] at hop; rw [hop] at hb; cases hb
  simpa [alookup_cons, hne] using hb

theorem addInst_pres (s : EmitterState) (inst : Inst) :
    EPres s (addInst s inst) := by
  refine ⟨rfl, rfl, rfl, fun k b hb => hb, fun bid bd hb => ?_⟩
  simp only [addInst, alookup_updateBlocks]
  by_cases hc : s.cursorBlock = bid
  · rw [if_pos hc, hb]
    exact ⟨_, rfl, rfl⟩
  · rw [if_neg hc]
    exact ⟨bd, hb, rfl⟩


theorem createOpV_pres (s : EmitterState) (k : InstKind) (ops : List Nat)
    (ty : MLType) (dk : Option DefKind) :
    EPres s (createOpV s k ops ty dk).2 :=
  addInst_pres s ⟨s.nextId, k, ops, some ⟨s.nextId + 1, ty, dk⟩⟩

theorem createOpZ_pres (s : EmitterState) (k : InstKind) (ops : List Nat) :
    EPres s (createOpZ s k ops) :=
  addInst_pres s ⟨s.nextId, k, ops, none⟩

theorem createBody_pres (s : EmitterState) (bid : Nat) :
    EPres s (createBody s bid) := by
  refine ⟨rfl, rfl, rfl, fun k b hb => hb, fun b bd hb => ⟨bd, ?_, rfl⟩⟩
  show alookup (s.blocks ++ [(bid, ⟨[], []⟩)]) b = some bd
  rw [alookup_append, hb]

theorem setToStart_core (s : EmitterState) (bid : Nat) :
    CorePres s (setToStart s bid) :=
  ⟨rfl, fun _ _ h => h, fun _ bd h => ⟨bd, h, rfl⟩⟩

theorem forCreate_pres (s : EmitterState) (inst : Inst) (bid n2 : Nat) :
    EPres s { createBody (addInst s inst) bid with nextId := n2 } :=
  ePres_trans (ePres_trans (addInst_pres s inst) (createBody_pres _ bid))
    ⟨rfl, rfl, rfl, fun _ _ hb => hb, fun _ bd hb => ⟨bd, hb, rfl⟩⟩

theorem emitExpr_memo (s : EmitterState) (e : Expr) (b : Option Value)
    (h : alookup s.ssaBindings e.eid = some b) :
    emitExpr s e = some (b, s) := by
  cases e <;> simp [emitExpr, h]

/-- Unfolding of `emitExpr` on a placeholder node. -/
theorem emitExpr_bindable_eq (s : EmitterState) (i : Nat) (ty : MLType) :
    emitExpr s (Expr.bindable i ty) =
      match alookup s.ssaBindings i with
      | some b => some (b, s)
      | none => some (none, s) := by
  cases hm : alookup s.ssaBindings i <;> simp [emitExpr, Expr.eid, hm]

/-- Unfolding of `emitExpr` on a non-`For` statement-block-like node. -/
theorem emitExpr_blockOther_eq (s : EmitterState) (i : Nat) :
    emitExpr s (Expr.blockLikeOther i) =
      match alookup s.ssaBindings i with
      | some b => some (b, s)
      | none => some (none, s) := by
  cases hm : alookup s.ssaBindings i <;> simp [emitExpr, Expr.eid, hm]

/-- Unfolding of `emitExpr` on an operator-application node. -/
theorem emitExpr_opE_eq (s : EmitterState) (i : Nat) (n : OpName)
    (args : List Expr) :
    emitExpr s (Expr.opE i n args) =
      (match alookup s.ssaBindings i with
      | some b => some (b, s)
      | none =>
        match emitExprList s args with
        | none => none
        | some (vals, s1) =>
          if vals.all Option.isSome then
            if zeroResultName n then
              let s1b := createOpZ s1 (InstKind.generic n)
                ((vals.filterMap id).map Value.vid)
              match insertBinding s1b i none with
              | none => none
              | some s2 => some (none, s2)
            else
              let opVals := vals.filterMap id
              let ty := (opVals.head?.map Value.ty).getD MLType.index
              let vs2 := createOpV s1 (InstKind.generic n)
                (opVals.map Value.vid) ty (some DefKind.otherInst)
              match insertBinding vs2.2 i (some vs2.1) with
              | none => none
              | some s3 => some (some vs2.1, s3)
          else
            some (none, s1)) := by
  cases hm : alookup s.ssaBindings i <;> simp [emitExpr, Expr.eid, hm]

/-- Unfolding of `emitExpr` on a bounded-loop node. -/
theorem emitExpr_forE_eq (s : EmitterState) (i : Nat) (lb ub step : Expr) :
    emitExpr s (Expr.forE i lb ub step) =
      (match alookup s.ssaBindings i with
      | some b => some (b, s)
      | none =>
        match emitExpr s lb with
        | none => none
        | some (vlbO, s1) =>
          match emitExpr s1 ub with
          | none => none
          | some (vubO, s2) =>
            match emitExpr s2 step with
            | none => none
            | some (vstO, s3) =>
              match vlbO, vubO, vstO with
              | some vlb, some vub, some vst =>
                if affineProvenance vlb then
                  if affineProvenance vub then
                    match vst.dk with
                    | some (DefKind.constantIndex k) =>
                      let instKind :=
                        match vlb.dk, vub.dk with
                        | some (DefKind.constantIndex l),
                          some (DefKind.constantIndex u) =>
                            InstKind.affineForConst l u k
                        | _, _ => InstKind.affineForSym k
                      let ops :=
                        match vlb.dk, vub.dk with
                        | some (DefKind.constantIndex _),
                          some (DefKind.constantIndex _) => ([] : List Nat)
                        | _, _ => [vlb.vid, vub.vid]
                      let bodyBid := s3.nextId + 2
                      let ivar : Value :=
                        ⟨s3.nextId + 1, MLType.index,
                          some (DefKind.affineFor bodyBid)⟩
                      let inst : Inst := ⟨s3.nextId, instKind, ops, some ivar⟩
                      let s4 := createBody (addInst s3 inst) bodyBid
                      let s5 := { s4 with nextId := s3.nextId + 3 }
                      match insertBinding s5 i (some ivar) with
                      | none => none
                      | some s6 => some (some ivar, s6)
                    | _ => none
                  else none
                else none
              | _, _, _ => some (none, s3)) := by
  cases hm : alookup s.ssaBindings i <;> simp [emitExpr, Expr.eid, hm]

/-- Unfolding of `emitExprList` on a cons cell. -/
theorem emitExprList_cons_eq (s : EmitterState) (e : Expr) (rest : List Expr) :
    emitExprList s (e :: rest) =
      (match emitExpr s e with
      | none => none
      | some (v, s1) =>
        match emitExprList s1 rest with
        | none => none
        | some (vs, s2) => some (v :: vs, s2)) := by
  simp [emitExprList]

mutual

theorem emitExpr_pres (s : EmitterState) (e : Expr) (r : Option Value)
    (s' : EmitterState) (h : emitExpr s e = some (r, s')) : EPres s s' := by
  cases hm : alookup s.ssaBindings e.eid with
  | some b =>
    rw [emitExpr_memo s e b hm] at h
    injection h with h1
    injection h1 with h2 h3
    rw [← h3]
    exact ePres_refl s
  | none =>
    cases e with
    | bindable i ty =>
      simp only [Expr.eid] at hm
      rw [emitExpr_bindable_eq, hm] at h
      injection h with h1
      injection h1 with h2 h3
      rw [← h3]
      exact ePres_refl s
    | blockLikeOther i =>
      simp only [Expr.eid] at hm
      rw [emitExpr_blockOther_eq, hm] at h
      injection h with h1
      injection h1 with h2 h3
      rw [← h3]
      exact ePres_refl s
    | opE i n args =>
      simp only [Expr.eid] at hm
      rw [emitExpr_opE_eq, hm] at h
      cases hl : emitExprList s args with
      | none => rw [hl] at h; exact absurd h (by simp)
      | some p =>
        obtain ⟨vals, s1⟩ := p
        rw [hl] at h
        have hp1 : EPres s s1 := emitExprList_pres s args vals s1 hl
        simp only [] at h
        split at h
        · split at h
          · cases hi : insertBinding (createOpZ s1 (InstKind.generic n)
                ((vals.filterMap id).map Value.vid)) i none with
            | none => rw [hi] at h; exact absurd h (by simp)
            | some s2 =>
              rw [hi] at h
              injection h with h1
              injection h1 with h2 h3
              rw [← h3]
              exact ePres_trans (ePres_trans hp1 (createOpZ_pres s1 _ _))
                (insertBinding_pres _ i none s2 hi)
          · cases hi : insertBinding (createOpV s1 (InstKind.generic n)
                ((vals.filterMap id).map Value.vid)
                (((vals.filterMap id).head?.map Value.ty).getD MLType.index)
                (some DefKind.otherInst)).2 i
                (some (createOpV s1 (InstKind.generic n)
                  ((vals.filterMap id).map Value.vid)
                  (((vals.filterMap id).head?.map Value.ty).getD MLType.index)
                  (some DefKind.otherInst)).1) with
            | none => rw [hi] at h; exact absurd h (by simp)
            | some s3 =>
              rw [hi] at h
              injection h with h1
              injection h1 with h2 h3
              rw [← h3]
              exact ePres_trans (ePres_trans hp1 (createOpV_pres s1 _ _ _ _))
                (insertBinding_pres _ i _ s3 hi)
        · injection h with h1
          injection h1 with h2 h3
          rw [← h3]
          exact hp1
    | forE i lb ub step =>
      simp only [Expr.eid] at hm
      rw [emitExpr_forE_eq, hm] at h
      cases h1 : emitExpr s lb with
      | none => rw [h1] at h; exact absurd h (by simp)
      | some p1 =>
        obtain ⟨vlbO, s1⟩ := p1
        rw [h1] at h
        have hp1 : EPres s s1 := emitExpr_pres s lb vlbO s1 h1
        simp only [] at h
        cases h2 : emitExpr s1 ub with
        | none => rw [h2] at h; exact absurd h (by simp)
        | some p2 =>
          obtain ⟨vubO, s2⟩ := p2
          rw [h2] at h
          have hp2 : EPres s1 s2 := emitExpr_pres s1 ub vubO s2 h2
          simp only [] at h
          cases h3 : emitExpr s2 step with
          | none => rw [h3] at h; exact absurd h (by simp)
          | some p3 =>
            obtain ⟨vstO, s3⟩ := p3
            rw [h3] at h
            have hp3 : EPres s2 s3 := emitExpr_pres s2 step vstO s3 h3
            have hp13 : EPres s s3 := ePres_trans (ePres_trans hp1 hp2) hp3
            simp only [] at h
            split at h
            · split at h
              · split at h
                · split at h
                  · split at h
                    · exact absurd h (by simp)
                    · rename_i s6 hi
                      injection h with hh1
                      injection hh1 with hh2 hh3
                      rw [← hh3]
                      exact ePres_trans hp13 (ePres_trans (forCreate_pres s3 _ _ _)
                        (insertBinding_pres _ i _ s6 hi))
                  · exact absurd h (by simp)
                · exact absurd h (by simp)
              · exact absurd h (by simp)
            · injection h with hh1
              injection hh1 with hh2 hh3
              rw [← hh3]
              exact hp13

theorem emitExprList_pres (s : EmitterState) (es : List Expr)
    (rs : List (Option Value)) (s' : EmitterState)
    (h : emitExprList s es = some (rs, s')) : EPres s s' := by
  cases es with
  | nil =>
    simp only [emitExprList] at h
    injection h with h1
    injection h1 with h2 h3
    rw [← h3]
    exact ePres_refl s
  | cons e rest =>
    rw [emitExprList_cons_eq] at h
    cases h1 : emitExpr s e with
    | none => rw [h1] at h; exact absurd h (by simp)
    | some p1 =>
      obtain ⟨v, s1⟩ := p1
      rw [h1] at h
      simp only [] at h
      cases h2 : emitExprList s1 rest with
      | none => rw [h2] at h; exact absurd h (by simp)
      | some p2 =>
        obtain ⟨vs, s2⟩ := p2
        rw [h2] at h
        injection h with hh1
        injection hh1 with hh2 hh3
        rw [← hh3]
        exact ePres_trans (emitExpr_pres s e v s1 h1) (emitExprList_pres s1 rest vs s2 h2)

end

/-- Unfolding of `emitStmt`. -/
theorem emitStmt_mk_eq (s : EmitterState) (lhs rhs : Expr)
    (enclosed : List Stmt) :
    emitStmt s (Stmt.mk lhs rhs enclosed) =
      (match emitExpr s rhs with
      | none => none
      | some (none, s1) =>
        match rhs.opName with
        | some n => if zeroResultName n then some s1 else none
        | none => none
      | some (some v, s1) =>
        match bind s1 lhs.eid v with
        | none => none
        | some s2 =>
          if rhs.isForKind then
            match v.dk with
            | some (DefKind.affineFor bodyBid) =>
              match emitStmts (setToStart s2 bodyBid) enclosed with
              | none => none
              | some s4 =>
                some { s4 with cursorBlock := s.cursorBlock,
                               cursorIp := s.cursorIp }
            | _ => none
          else
            match emitStmts s2 enclosed with
            | none => none
            | some s4 =>
              some { s4 with cursorBlock := s.cursorBlock,
                             cursorIp := s.cursorIp }) := by
  simp [emitStmt]

/-- Unfolding of `emitStmts` on the empty list. -/
theorem emitStmts_nil_eq (s : EmitterState) : emitStmts s [] = some s := by
  simp [emitStmts]

/-- Unfolding of `emitStmts` on a cons cell. -/
theorem emitStmts_cons_eq (s : EmitterState) (st : Stmt) (rest : List Stmt) :
    emitStmts s (st :: rest) =
      (match emitStmt s st with
      | none => none
      | some s1 => emitStmts s1 rest) := by
  simp [emitStmts]

theorem corePres_cursorSet (s : EmitterState) (cb : Nat) (ip : Option Nat) :
    CorePres s { s with cursorBlock := cb, cursorIp := ip } :=
  ⟨rfl, fun _ _ hb => hb, fun _ bd hb => ⟨bd, hb, rfl⟩⟩

mutual

theorem emitStmt_pres (s : EmitterState) (st : Stmt) (s' : EmitterState)
    (h : emitStmt s st = some s') : EPres s s' := by
  cases st with
  | mk lhs rhs enclosed =>
    rw [emitStmt_mk_eq] at h
    cases he : emitExpr s rhs with
    | none => rw [he] at h; exact absurd h (by simp)
    | some p =>
      obtain ⟨vO, s1⟩ := p
      rw [he] at h
      have hp1 : EPres s s1 := emitExpr_pres s rhs vO s1 he
      cases vO with
      | none =>
        simp only [] at h
        split at h
        · split at h
          · injection h with h1
            rw [← h1]
            exact hp1
          · exact absurd h (by simp)
        · exact absurd h (by simp)
      | some v =>
        simp only [] at h
        cases hb : bind s1 lhs.eid v with
        | none => rw [hb] at h; exact absurd h (by simp)
        | some s2 =>
          rw [hb] at h
          have hp2 : EPres s1 s2 := insertBinding_pres s1 lhs.eid (some v) s2 hb
          simp only [] at h
          split at h
          · split at h
            · rename_i bodyBid hdk
              cases hs : emitStmts (setToStart s2 bodyBid) enclosed with
              | none => rw [hs] at h; exact absurd h (by simp)
              | some s4 =>
                rw [hs] at h
                injection h with h1
                rw [← h1]
                have hp3 : EPres (setToStart s2 bodyBid) s4 :=
                  emitStmts_pres (setToStart s2 bodyBid) enclosed s4 hs
                refine ⟨rfl, rfl, ?_⟩
                have c : CorePres s s4 :=
                  corePres_trans (corePres_trans (corePres_trans hp1.2.2 hp2.2.2)
                    (setToStart_core s2 bodyBid)) hp3.2.2
                exact corePres_trans c (corePres_cursorSet s4 s.cursorBlock s.cursorIp)
            · exact absurd h (by simp)
          · cases hs : emitStmts s2 enclosed with
            | none => rw [hs] at h; exact absurd h (by simp)
            | some s4 =>
              rw [hs] at h
              injection h with h1
              rw [← h1]
              have hp3 : EPres s2 s4 := emitStmts_pres s2 enclosed s4 hs
              refine ⟨rfl, rfl, ?_⟩
              have c : CorePres s s4 :=
                corePres_trans (corePres_trans hp1.2.2 hp2.2.2) hp3.2.2
              exact corePres_trans c (corePres_cursorSet s4 s.cursorBlock s.cursorIp)

theorem emitStmts_pres (s : EmitterState) (sts : List Stmt) (s' : EmitterState)
    (h : emitStmts s sts = some s') : EPres s s' := by
  cases sts with
  | nil =>
    rw [emitStmts_nil_eq] at h
    injection h with h1
    rw [← h1]
    exact ePres_refl s
  | cons st rest =>
    rw [emitStmts_cons_eq] at h
    cases h1 : emitStmt s st with
    | none => rw [h1] at h; exact absurd h (by simp)
    | some s1 =>
      rw [h1] at h
      exact ePres_trans (emitStmt_pres s st s1 h1) (emitStmts_pres s1 rest s' h)

end

theorem insertBinding_lookup (s : EmitterState) (k : Nat) (v : Option Value)
    (s' : EmitterState) (h : insertBinding s k v = some s') :
    alookup s'.ssaBindings k = some v := by
  obtain ⟨hop, rfl⟩ := insertBinding_some s k v s' h
  simp [alookup_cons]

theorem insertBinding_lookup_ne (s : EmitterState) (k : Nat) (v : Option Value)
    (s' : EmitterState) (h : insertBinding s k v = some s') (k2 : Nat)
    (hne : k ≠ k2) :
    alookup s'.ssaBindings k2 = alookup s.ssaBindings k2 := by
  obtain ⟨hop, rfl⟩ := insertBinding_some s k v s' h
  simp [alookup_cons, hne]

theorem createOpV_bindings (s : EmitterState) (k : InstKind) (ops : List Nat)
    (ty : MLType) (dk : Option DefKind) :
    (createOpV s k ops ty dk).2.ssaBindings = s.ssaBindings := rfl

theorem createOpZ_bindings (s : EmitterState) (k : InstKind)
    (ops : List Nat) : (createOpZ s k ops).ssaBindings = s.ssaBindings := rfl

mutual

/-- All storage identities occurring in a node (itself included). -/
def idsOf : Expr → List Nat
  | .bindable i _ => [i]
  | .opE i _ args => i :: idsOfList args
  | .forE i lb ub step => i :: (idsOf lb ++ idsOf ub ++ idsOf step)
  | .blockLikeOther i => [i]

/-- All storage identities occurring in a list of nodes. -/
def idsOfList : List Expr → List Nat
  | [] => []
  | e :: rest => idsOf e ++ idsOfList rest

end

mutual

theorem emitExpr_keys (s : EmitterState) (e : Expr) (r : Option Value)
    (s' : EmitterState) (h : emitExpr s e = some (r, s')) (k : Nat)
    (hk : k ∉ idsOf e) :
    alookup s'.ssaBindings k = alookup s.ssaBindings k := by
  cases hm : alookup s.ssaBindings e.eid with
  | some b =>
    rw [emitExpr_memo s e b hm] at h
    injection h with h1
    injection h1 with h2 h3
    rw [← h3]
  | none =>
    cases e with
    | bindable i ty =>
      simp only [Expr.eid] at hm
      rw [emitExpr_bindable_eq, hm] at h
      injection h with h1
      injection h1 with h2 h3
      rw [← h3]
    | blockLikeOther i =>
      simp only [Expr.eid] at hm
      rw [emitExpr_blockOther_eq, hm] at h
      injection h with h1
      injection h1 with h2 h3
      rw [← h3]
    | opE i n args =>
      simp only [Expr.eid] at hm
      simp only [idsOf, List.mem_cons, not_or] at hk
      obtain ⟨hki, hkargs⟩ := hk
      rw [emitExpr_opE_eq, hm] at h
      cases hl : emitExprList s args with
      | none => rw [hl] at h; exact absurd h (by simp)
      | some p =>
        obtain ⟨vals, s1⟩ := p
        rw [hl] at h
        have hK1 : alookup s1.ssaBindings k = alookup s.ssaBindings k :=
          emitExprList_keys s args vals s1 hl k hkargs
        simp only [] at h
        split at h
        · split at h
          · cases hi : insertBinding (createOpZ s1 (InstKind.generic n)
                ((vals.filterMap id).map Value.vid)) i none with
            | none => rw [hi] at h; exact absurd h (by simp)
            | some s2 =>
              rw [hi] at h
              injection h with h1
              injection h1 with h2 h3
              rw [← h3]
              rw [insertBinding_lookup_ne _ i none s2 hi k
                (fun he => hki he.symm)]
              rw [createOpZ_bindings]
              exact hK1
          · cases hi : insertBinding (createOpV s1 (InstKind.generic n)
                ((vals.filterMap id).map Value.vid)
                (((vals.filterMap id).head?.map Value.ty).getD MLType.index)
                (some DefKind.otherInst)).2 i
                (some (createOpV s1 (InstKind.generic n)
                  ((vals.filterMap id).map Value.vid)
                  (((vals.filterMap id).head?.map Value.ty).getD MLType.index)
                  (some DefKind.otherInst)).1) with
            | none => rw [hi] at h; exact absurd h (by simp)
            | some s3 =>
              rw [hi] at h
              injection h with h1
              injection h1 with h2 h3
              rw [← h3]
              rw [insertBinding_lookup_ne _ i _ s3 hi k
                (fun he => hki he.symm)]
              rw [createOpV_bindings]
              exact hK1
        · injection h with h1
          injection h1 with h2 h3
          rw [← h3]
          exact hK1
    | forE i lb ub step =>
      simp only [Expr.eid] at hm
      simp only [idsOf, List.mem_cons, not_or, List.mem_append] at hk
      obtain ⟨hki, hklb, hkub, hkst⟩ :
          ¬ k = i ∧ k ∉ idsOf lb ∧ k ∉ idsOf ub ∧ k ∉ idsOf step := by
        tauto
      rw [emitExpr_forE_eq, hm] at h
      cases h1 : emitExpr s lb with
      | none => rw [h1] at h; exact absurd h (by simp)
      | some p1 =>
        obtain ⟨vlbO, s1⟩ := p1
        rw [h1] at h
        have hK1 : alookup s1.ssaBindings k = alookup s.ssaBindings k :=
          emitExpr_keys s lb vlbO s1 h1 k hklb
        simp only [] at h
        cases h2 : emitExpr s1 ub with
        | none => rw [h2] at h; exact absurd h (by simp)
        | some p2 =>
          obtain ⟨vubO, s2⟩ := p2
          rw [h2] at h
          have hK2 : alookup s2.ssaBindings k = alookup s1.ssaBindings k :=
            emitExpr_keys s1 ub vubO s2 h2 k hkub
          simp only [] at h
          cases h3 : emitExpr s2 step with
          | none => rw [h3] at h; exact absurd h (by simp)
          | some p3 =>
            obtain ⟨vstO, s3⟩ := p3
            rw [h3] at h
            have hK3 : alookup s3.ssaBindings k = alookup s2.ssaBindings k :=
              emitExpr_keys s2 step vstO s3 h3 k hkst
            have hK13 : alookup s3.ssaBindings k = alookup s.ssaBindings k :=
              (hK3.trans hK2).trans hK1
            simp only [] at h
            split at h
            · split at h
              · split at h
                · split at h
                  · split at h
                    · exact absurd h (by simp)
                    · rename_i s6 hi
                      injection h with hh1
                      injection hh1 with hh2 hh3
                      rw [← hh3]
                      rw [insertBinding_lookup_ne _ i _ s6 hi k
                        (fun he => hki he.symm)]
                      exact hK13
                  · exact absurd h (by simp)
                · exact absurd h (by simp)
              · exact absurd h (by simp)
            · injection h with hh1
              injection hh1 with hh2 hh3
              rw [← hh3]
              exact hK13

theorem emitExprList_keys (s : EmitterState) (es : List Expr)
    (rs : List (Option Value)) (s' : EmitterState)
    (h : emitExprList s es = some (rs, s')) (k : Nat)
    (hk : k ∉ idsOfList es) :
    alookup s'.ssaBindings k = alookup s.ssaBindings k := by
  cases es with
  | nil =>
    rw [emitExprList] at h
    injection h with h1
    injection h1 with h2 h3
    rw [← h3]
  | cons e rest =>
    simp only [idsOfList, List.mem_append, not_or] at hk
    obtain ⟨hke, hkrest⟩ := hk
    rw [emitExprList_cons_eq] at h
    cases h1 : emitExpr s e with
    | none => rw [h1] at h; exact absurd h (by simp)
    | some p1 =>
      obtain ⟨v, s1⟩ := p1
      rw [h1] at h
      simp only [] at h
      cases h2 : emitExprList s1 rest with
      | none => rw [h2] at h; exact absurd h (by simp)
      | some p2 =>
        obtain ⟨vs, s2⟩ := p2
        rw [h2] at h
        injection h with hh1
        injection hh1 with hh2 hh3
        rw [← hh3]
        exact (emitExprList_keys s1 rest vs s2 h2 k hkrest).trans
          (emitExpr_keys s e v s1 h1 k hke)

end

/-- A successful `emitExpr` that returns a materialized value always leaves
that value recorded in the binding table under the node's identity (either
it was already there — memo hit — or it is inserted at the end of the
call). -/
theorem emitExpr_success_recorded (s : EmitterState) (e : Expr) (v : Value)
    (s' : EmitterState) (h : emitExpr s e = some (some v, s')) :
    alookup s'.ssaBindings e.eid = some (some v) := by
  cases hm : alookup s.ssaBindings e.eid with
  | some b =>
    rw [emitExpr_memo s e b hm] at h
    injection h with h1
    injection h1 with h2 h3
    rw [← h3, hm, h2]
  | none =>
    cases e with
    | bindable i ty =>
      simp only [Expr.eid] at hm ⊢
      rw [emitExpr_bindable_eq, hm] at h
      injection h with h1
      injection h1 with h2 h3
      exact absurd h2 (by simp)
    | blockLikeOther i =>
      simp only [Expr.eid] at hm ⊢
      rw [emitExpr_blockOther_eq, hm] at h
      injection h with h1
      injection h1 with h2 h3
      exact absurd h2 (by simp)
    | opE i n args =>
      simp only [Expr.eid] at hm ⊢
      rw [emitExpr_opE_eq, hm] at h
      cases hl : emitExprList s args with
      | none => rw [hl] at h; exact absurd h (by simp)
      | some p =>
        obtain ⟨vals, s1⟩ := p
        rw [hl] at h
        simp only [] at h
        split at h
        · split at h
          · cases hi : insertBinding (createOpZ s1 (InstKind.generic n)
                ((vals.filterMap id).map Value.vid)) i none with
            | none => rw [hi] at h; exact absurd h (by simp)
            | some s2 =>
              rw [hi] at h
              injection h with h1
              injection h1 with h2 h3
              exact absurd h2 (by simp)
          · cases hi : insertBinding (createOpV s1 (InstKind.generic n)
                ((vals.filterMap id).map Value.vid)
                (((vals.filterMap id).head?.map Value.ty).getD MLType.index)
                (some DefKind.otherInst)).2 i
                (some (createOpV s1 (InstKind.generic n)
                  ((vals.filterMap id).map Value.vid)
                  (((vals.filterMap id).head?.map Value.ty).getD MLType.index)
                  (some DefKind.otherInst)).1) with
            | none => rw [hi] at h; exact absurd h (by simp)
            | some s3 =>
              rw [hi] at h
              injection h with h1
              injection h1 with h2 h3
              rw [← h3]
              rw [insertBinding_lookup _ i _ s3 hi]
              rw [h2]
        · injection h with h1
          injection h1 with h2 h3
          exact absurd h2 (by simp)
    | forE i lb ub step =>
      simp only [Expr.eid] at hm ⊢
      rw [emitExpr_forE_eq, hm] at h
      cases h1 : emitExpr s lb with
      | none => rw [h1] at h; exact absurd h (by simp)
      | some p1 =>
        obtain ⟨vlbO, s1⟩ := p1
        rw [h1] at h
        simp only [] at h
        cases h2 : emitExpr s1 ub with
        | none => rw [h2] at h; exact absurd h (by simp)
        | some p2 =>
          obtain ⟨vubO, s2⟩ := p2
          rw [h2] at h
          simp only [] at h
          cases h3 : emitExpr s2 step with
          | none => rw [h3] at h; exact absurd h (by simp)
          | some p3 =>
            obtain ⟨vstO, s3⟩ := p3
            rw [h3] at h
            simp only [] at h
            split at h
            · split at h
              · split at h
                · split at h
                  · split at h
                    · exact absurd h (by simp)
                    · rename_i s6 hi
                      injection h with hh1
                      injection hh1 with hh2 hh3
                      rw [← hh3]
                      rw [insertBinding_lookup _ i _ s6 hi]
                      rw [hh2]
                  · exact absurd h (by simp)
                · exact absurd h (by simp)
              · exact absurd h (by simp)
            · injection h with hh1
              injection hh1 with hh2 hh3
              exact absurd hh2 (by simp)

/-! ### Claim theorems -/

/-- C1: Memoized emission is idempotent.  If `emitExpr` on node `e`
succeeds with a materialized value `v`, a second `emitExpr` call on the
same emitter returns the identical value via the binding-table lookup and
changes nothing (same state, hence no new instruction is built for `e` no
matter how many further times it is looked up as a shared operand). -/
theorem c1_idempotent_memoization (s : EmitterState) (e : Expr) (v : Value)
    (s1 : EmitterState) (h : emitExpr s e = some (some v, s1)) :
    emitExpr s1 e = some (some v, s1) :=
  emitExpr_memo s1 e (some v) (emitExpr_success_recorded s e v s1 h)

theorem c1_idempotent_memoization_witness :
    emitExpr exOpState exOpExpr = some (some exOpVal, exOpAfter) ∧
    emitExpr exOpAfter exOpExpr = some (some exOpVal, exOpAfter) :=
  ⟨by decide,
   c1_idempotent_memoization exOpState exOpExpr exOpVal exOpAfter (by decide)⟩

/-- C2: `bind` enforces at-most-one binding.  Binding an already-bound node
is a fatal error (`none`); a successful `bind` performs no IR mutation at
all (blocks and cursor unchanged), records the value, and makes any second
`bind` of the same node — with any value — fatal.  In particular the fatal
second bind happens before any IR mutation, since `bind` never touches the
IR in the first place. -/
theorem c2_bind_at_most_once (s : EmitterState) (k : Nat) (v v2 : Value) :
    ((alookup s.ssaBindings k).isSome = true → bind s k v = none) ∧
    (∀ s', bind s k v = some s' →
      s'.blocks = s.blocks ∧ s'.cursorBlock = s.cursorBlock ∧
      s'.cursorIp = s.cursorIp ∧
      alookup s'.ssaBindings k = some (some v) ∧
      bind s' k v2 = none) := by
  constructor
  · intro hb
    unfold bind insertBinding
    cases hx : alookup s.ssaBindings k with
    | none => rw [hx] at hb; simp at hb
    | some b => rfl
  · intro s' hs
    obtain ⟨hop, rfl⟩ := insertBinding_some s k (some v) s' hs
    refine ⟨rfl, rfl, rfl, by simp [alookup_cons], ?_⟩
    unfold bind insertBinding
    simp [alookup_cons]

theorem c2_bind_at_most_once_witness :
    (alookup exOpState.ssaBindings 1).isSome = true ∧
    bind exOpState 1 exOpVal = none :=
  ⟨by decide,
   (c2_bind_at_most_once exOpState 1 exOpVal exOpVal).1 (by decide)⟩

/-- C6: after `emitStmt` returns (on every non-aborting exit path — the
zero-result early return included — and for arbitrarily deeply nested
bodies), the builder's insertion cursor equals the cursor in effect
immediately before the call. -/
theorem c6_emitStmt_cursor_restored (s : EmitterState) (st : Stmt)
    (s' : EmitterState) (h : emitStmt s st = some s') :
    s'.cursorBlock = s.cursorBlock ∧ s'.cursorIp = s.cursorIp :=
  ⟨(emitStmt_pres s st s' h).1, (emitStmt_pres s st s' h).2.1⟩

theorem c6_emitStmt_cursor_restored_witness :
    emitStmt exLoopState exNestedStmt = some exNestedAfter ∧
    (exNestedAfter.cursorBlock = exLoopState.cursorBlock ∧
     exNestedAfter.cursorIp = exLoopState.cursorIp) :=
  ⟨by decide,
   c6_emitStmt_cursor_restored exLoopState exNestedStmt exNestedAfter
     (by decide)⟩

/-- C7: when the RHS of a statement produces no value, `emitStmt` succeeds
only if the RHS operation is in the closed allow-list dealloc/store/return,
in which case it returns exactly the post-RHS state `s1` — in particular it
performs no binding of the LHS node; every other zero-result case
(non-allow-listed operation or a non-operator RHS, e.g. a failed loop or an
unbound placeholder) is a fatal invariant violation. -/
theorem c7_zero_result_allowlist (s : EmitterState) (lhs rhs : Expr)
    (enclosed : List Stmt) (s1 : EmitterState)
    (h : emitExpr s rhs = some (none, s1)) :
    (∀ n, rhs.opName = some n → zeroResultName n = true →
      emitStmt s (Stmt.mk lhs rhs enclosed) = some s1) ∧
    (∀ n, rhs.opName = some n → zeroResultName n = false →
      emitStmt s (Stmt.mk lhs rhs enclosed) = none) ∧
    (rhs.opName = none → emitStmt s (Stmt.mk lhs rhs enclosed) = none) := by
  refine ⟨?_, ?_, ?_⟩
  · intro n hn hz
    rw [emitStmt_mk_eq, h]
    simp only [hn, hz, if_true]
  · intro n hn hz
    rw [emitStmt_mk_eq, h]
    simp only [hn, hz]
    simp
  · intro hn
    rw [emitStmt_mk_eq, h]
    simp only [hn]

theorem c7_zero_result_allowlist_witness :
    emitExpr exStoreState exStoreExpr = some (none, exStoreAfter) ∧
    emitStmt exStoreState
      (Stmt.mk (Expr.bindable 9 (MLType.float 32)) exStoreExpr []) =
      some exStoreAfter :=
  ⟨by decide,
   (c7_zero_result_allowlist exStoreState (Expr.bindable 9 (MLType.float 32))
     exStoreExpr [] exStoreAfter (by decide)).1 OpName.store (by decide)
     (by decide)⟩

/-- C10: the binding table records successes but not failures.
Part 1: a success with a materialized value records it, and the memo then
serves it unchanged.  Part 2: a legitimate zero-result success on a
previously unrecorded operator node records `none` for the node, and a
later `emitExpr` of the same node returns `none` from the memo without
rebuilding (state unchanged).  Part 3: a missing-binding failure on an
unbound placeholder records nothing (the state is untouched).  Part 4: a
missing-binding failure inside an operator node's operands leaves the
failing node unrecorded. -/
theorem c10_binding_records_success_only (s : EmitterState) :
    (∀ e v s', emitExpr s e = some (some v, s') →
      alookup s'.ssaBindings e.eid = some (some v) ∧
      emitExpr s' e = some (some v, s')) ∧
    (∀ i n args vals s1, zeroResultName n = true →
      alookup s.ssaBindings i = none → i ∉ idsOfList args →
      emitExprList s args = some (vals, s1) →
      vals.all Option.isSome = true →
      ∃ s2, emitExpr s (Expr.opE i n args) = some (none, s2) ∧
        alookup s2.ssaBindings i = some none ∧
        emitExpr s2 (Expr.opE i n args) = some (none, s2)) ∧
    (∀ i ty, alookup s.ssaBindings i = none →
      emitExpr s (Expr.bindable i ty) = some (none, s)) ∧
    (∀ i n args vals s1, alookup s.ssaBindings i = none →
      i ∉ idsOfList args → emitExprList s args = some (vals, s1) →
      vals.all Option.isSome = false →
      emitExpr s (Expr.opE i n args) = some (none, s1) ∧
      alookup s1.ssaBindings i = none) := by
  refine ⟨?_, ?_, ?_, ?_⟩
  · intro e v s' h
    exact ⟨emitExpr_success_recorded s e v s' h,
      emitExpr_memo s' e (some v) (emitExpr_success_recorded s e v s' h)⟩
  · intro i n args vals s1 hz hm hfree hl hall
    have hK : alookup s1.ssaBindings i = none := by
      rw [emitExprList_keys s args vals s1 hl i hfree, hm]
    have hKb : alookup (createOpZ s1 (InstKind.generic n)
        ((vals.filterMap id).map Value.vid)).ssaBindings i = none := hK
    have hins : insertBinding (createOpZ s1 (InstKind.generic n)
        ((vals.filterMap id).map Value.vid)) i none =
        some { createOpZ s1 (InstKind.generic n)
            ((vals.filterMap id).map Value.vid) with
          ssaBindings := (i, none) ::
            (createOpZ s1 (InstKind.generic n)
              ((vals.filterMap id).map Value.vid)).ssaBindings } := by
      unfold insertBinding
      rw [hKb]
    refine ⟨{ createOpZ s1 (InstKind.generic n)
        ((vals.filterMap id).map Value.vid) with
      ssaBindings := (i, none) ::
        (createOpZ s1 (InstKind.generic n)
          ((vals.filterMap id).map Value.vid)).ssaBindings }, ?_, ?_, ?_⟩
    · rw [emitExpr_opE_eq, hm, hl]
      simp only [hall, hz, if_true, hins]
    · simp [alookup_cons]
    · refine emitExpr_memo _ (Expr.opE i n args) none ?_
      simp [Expr.eid, alookup_cons]
  · intro i ty hm
    rw [emitExpr_bindable_eq, hm]
  · intro i n args vals s1 hm hfree hl hall
    constructor
    · rw [emitExpr_opE_eq, hm, hl]
      simp only [hall]
      simp
    · rw [emitExprList_keys s args vals s1 hl i hfree, hm]

theorem c10_binding_records_success_only_witness :
    zeroResultName OpName.store = true ∧
    (∃ s2, emitExpr exStoreState exStoreExpr = some (none, s2) ∧
      alookup s2.ssaBindings 3 = some none ∧
      emitExpr s2 exStoreExpr = some (none, s2)) :=
  ⟨by decide,
   (c10_binding_records_success_only exStoreState).2.1 3 OpName.store
     [Expr.bindable 2 (MLType.float 32),
      Expr.bindable 1 (MLType.memref [4] (MLType.float 32))]
     [some ⟨101, MLType.float 32, none⟩,
      some ⟨100, MLType.memref [4] (MLType.float 32), none⟩]
     exStoreState (by decide) (by decide) (by decide) (by decide) (by decide)⟩

/-- A successful run of the bounded-loop branch of `emitExpr`: the three
control values materialize, both bounds pass the provenance check, the
step is a static index constant; the loop instruction (constant form when
both bound values are constants, symbolic form otherwise) is created at
the cursor, its body block is created, and the node is bound to the
induction variable. -/
theorem emitExpr_forE_success (s s1 s2 s3 : EmitterState) (i : Nat)
    (lb ub step : Expr) (vlb vub vst : Value) (k : Int)
    (hm : alookup s.ssaBindings i = none)
    (h1 : emitExpr s lb = some (some vlb, s1))
    (h2 : emitExpr s1 ub = some (some vub, s2))
    (h3 : emitExpr s2 step = some (some vst, s3))
    (hplb : affineProvenance vlb = true) (hpub : affineProvenance vub = true)
    (hk : vst.dk = some (DefKind.constantIndex k))
    (hfree : alookup s3.ssaBindings i = none) :
    emitExpr s (Expr.forE i lb ub step) =
      some (some ⟨s3.nextId + 1, MLType.index,
          some (DefKind.affineFor (s3.nextId + 2))⟩,
        { createBody (addInst s3 ⟨s3.nextId,
            (match vlb.dk, vub.dk with
             | some (DefKind.constantIndex l), some (DefKind.constantIndex u) =>
                 InstKind.affineForConst l u k
             | _, _ => InstKind.affineForSym k),
            (match vlb.dk, vub.dk with
             | some (DefKind.constantIndex _), some (DefKind.constantIndex _) =>
                 ([] : List Nat)
             | _, _ => [vlb.vid, vub.vid]),
            some ⟨s3.nextId + 1, MLType.index,
              some (DefKind.affineFor (s3.nextId + 2))⟩⟩) (s3.nextId + 2) with
          nextId := s3.nextId + 3,
          ssaBindings := (i, some ⟨s3.nextId + 1, MLType.index,
            some (DefKind.affineFor (s3.nextId + 2))⟩) :: s3.ssaBindings }) := by
  rw [emitExpr_forE_eq, hm, h1]
  simp only []
  rw [h2]
  simp only []
  rw [h3]
  simp only []
  simp only [hplb, hpub, if_true, hk]
  have hfree5 : alookup (createBody (addInst s3 ⟨s3.nextId,
      (match vlb.dk, vub.dk with
       | some (DefKind.constantIndex l), some (DefKind.constantIndex u) =>
           InstKind.affineForConst l u k
       | _, _ => InstKind.affineForSym k),
      (match vlb.dk, vub.dk with
       | some (DefKind.constantIndex _), some (DefKind.constantIndex _) =>
           ([] : List Nat)
       | _, _ => [vlb.vid, vub.vid]),
      some ⟨s3.nextId + 1, MLType.index,
        some (DefKind.affineFor (s3.nextId + 2))⟩⟩) (s3.nextId + 2)).ssaBindings
      i = none := hfree
  simp only [insertBinding, hfree5]
  rfl

/-- C4 counterexample: the claim says a bound whose provenance is not one
of constant / composed affine application / loop induction variable is a
fatal invariant violation; but the source explicitly accepts bound values
with no defining instruction (function arguments): "There may be no
defining instruction if the value is a function argument.  We accept such
values."  Here the lower bound is bound to the function-argument value
`⟨100, index, none⟩` — none of the three listed provenances — yet
`emitExpr` succeeds and emits the symbolic-bound loop form. -/
theorem c4_counterexample_funcarg_bound :
    (⟨100, MLType.index, none⟩ : Value).dk = none ∧
    alookup exArgBoundState.ssaBindings 1 =
      some (some ⟨100, MLType.index, none⟩) ∧
    emitExpr exArgBoundState exForExpr =
      some (some exIvarOuter, exArgBoundAfter) :=
  ⟨rfl, by decide, by decide⟩

/-- C4 (amended): when `emitExpr` lowers a bounded-loop node, the step
must reduce to a statically known index constant — any other step value is
fatal; and each bound value must either have no defining instruction (a
function/block argument, accepted by the source) or be derived from a
constant, a composed affine application, or another loop's induction
variable (`affineProvenance`) — a bound outside this set is fatal, and
bounds inside it (with a constant step) are accepted. -/
theorem c4_loop_bound_step_checks (s s1 s2 s3 : EmitterState) (i : Nat)
    (lb ub step : Expr) (vlb vub vst : Value)
    (hm : alookup s.ssaBindings i = none)
    (h1 : emitExpr s lb = some (some vlb, s1))
    (h2 : emitExpr s1 ub = some (some vub, s2))
    (h3 : emitExpr s2 step = some (some vst, s3)) :
    ((∀ k, vst.dk ≠ some (DefKind.constantIndex k)) →
      emitExpr s (Expr.forE i lb ub step) = none) ∧
    (affineProvenance vlb = false →
      emitExpr s (Expr.forE i lb ub step) = none) ∧
    (affineProvenance vub = false →
      emitExpr s (Expr.forE i lb ub step) = none) ∧
    (affineProvenance vlb = true → affineProvenance vub = true →
      ∀ k, vst.dk = some (DefKind.constantIndex k) →
      alookup s3.ssaBindings i = none →
      ∃ r s6, emitExpr s (Expr.forE i lb ub step) = some (some r, s6)) := by
  refine ⟨?_, ?_, ?_, ?_⟩
  · intro hne
    rw [emitExpr_forE_eq, hm, h1]
    simp only []
    rw [h2]
    simp only []
    rw [h3]
    simp only []
    simp [ite_self]
  · intro hplb
    rw [emitExpr_forE_eq, hm, h1]
    simp only []
    rw [h2]
    simp only []
    rw [h3]
    simp only []
    simp [hplb]
  · intro hpub
    rw [emitExpr_forE_eq, hm, h1]
    simp only []
    rw [h2]
    simp only []
    rw [h3]
    simp only []
    cases hplb : affineProvenance vlb with
    | false => simp [hplb]
    | true => simp [hplb, hpub]
  · intro hplb hpub k hk hfree
    exact ⟨_, _, emitExpr_forE_success s s1 s2 s3 i lb ub step vlb vub vst k
      hm h1 h2 h3 hplb hpub hk hfree⟩

theorem c4_loop_bound_step_checks_witness :
    affineProvenance ⟨100, MLType.index, none⟩ = true ∧
    (∃ r s6, emitExpr exArgBoundState exForExpr = some (some r, s6)) :=
  ⟨by decide,
   (c4_loop_bound_step_checks exArgBoundState exArgBoundState exArgBoundState
      exArgBoundState 4 (Expr.bindable 1 MLType.index)
      (Expr.bindable 2 MLType.index) (Expr.bindable 3 MLType.index)
      ⟨100, MLType.index, none⟩
      ⟨101, MLType.index, some (DefKind.constantIndex 10)⟩
      ⟨102, MLType.index, some (DefKind.constantIndex 1)⟩
      (by decide) (by decide) (by decide) (by decide)).2.2.2
     (by decide) (by decide) 1 (by decide) (by decide)⟩

/-- C5: loop form selection.  Under the checks of the bounded-loop branch
(bounds materialized with accepted provenance, constant step), the node is
emitted exactly once at the cursor, its body region is created as a fresh
empty block, and the node's result is bound to the loop's induction
variable; the emitted instruction is the compact constant-bounded form
when both bound values are index constants, and the general symbolic-bound
form (taking the two bound values as operands) when either is not. -/
theorem c5_loop_form_selection (s s1 s2 s3 : EmitterState) (i : Nat)
    (lb ub step : Expr) (vlb vub vst : Value) (k : Int) (bd3 : BlockData)
    (hm : alookup s.ssaBindings i = none)
    (h1 : emitExpr s lb = some (some vlb, s1))
    (h2 : emitExpr s1 ub = some (some vub, s2))
    (h3 : emitExpr s2 step = some (some vst, s3))
    (hplb : affineProvenance vlb = true) (hpub : affineProvenance vub = true)
    (hk : vst.dk = some (DefKind.constantIndex k))
    (hfree : alookup s3.ssaBindings i = none)
    (hb3 : getBlock s3 s3.cursorBlock = some bd3) (hip3 : s3.cursorIp = none)
    (hnb : getBlock s3 (s3.nextId + 2) = none) :
    ∃ s6, emitExpr s (Expr.forE i lb ub step) =
        some (some ⟨s3.nextId + 1, MLType.index,
          some (DefKind.affineFor (s3.nextId + 2))⟩, s6) ∧
      alookup s6.ssaBindings i =
        some (some ⟨s3.nextId + 1, MLType.index,
          some (DefKind.affineFor (s3.nextId + 2))⟩) ∧
      getBlock s6 (s3.nextId + 2) = some ⟨[], []⟩ ∧
      (∀ l u, vlb.dk = some (DefKind.constantIndex l) →
        vub.dk = some (DefKind.constantIndex u) →
        cursorInsts s6 = bd3.insts ++
          [⟨s3.nextId, InstKind.affineForConst l u k, [],
            some ⟨s3.nextId + 1, MLType.index,
              some (DefKind.affineFor (s3.nextId + 2))⟩⟩]) ∧
      ((∀ l u, ¬ (vlb.dk = some (DefKind.constantIndex l) ∧
          vub.dk = some (DefKind.constantIndex u))) →
        cursorInsts s6 = bd3.insts ++
          [⟨s3.nextId, InstKind.affineForSym k, [vlb.vid, vub.vid],
            some ⟨s3.nextId + 1, MLType.index,
              some (DefKind.affineFor (s3.nextId + 2))⟩⟩]) := by
  simp only [getBlock] at hb3 hnb
  refine ⟨_, emitExpr_forE_success s s1 s2 s3 i lb ub step vlb vub vst k
    hm h1 h2 h3 hplb hpub hk hfree, ?_, ?_, ?_, ?_⟩
  · simp [alookup_cons]
  · simp only [getBlock, createBody, addInst]
    rw [alookup_append, alookup_updateBlocks]
    by_cases hc : s3.cursorBlock = s3.nextId + 2
    · simp [hc, hnb, alookup]
    · simp [hc, hnb, alookup]
  · intro l u hl hu
    simp only [cursorInsts, getBlock, createBody, addInst]
    rw [alookup_append, alookup_updateBlocks]
    simp only [if_pos rfl, hb3, Option.map_some]
    simp [insertAtIp, hip3, hl, hu]
  · intro hnc
    simp only [cursorInsts, getBlock, createBody, addInst]
    rw [alookup_append, alookup_updateBlocks]
    simp only [if_pos rfl, hb3, Option.map_some]
    have hops : (match vlb.dk, vub.dk with
        | some (DefKind.constantIndex _), some (DefKind.constantIndex _) =>
            ([] : List Nat)
        | _, _ => [vlb.vid, vub.vid]) = [vlb.vid, vub.vid] := by
      cases hl : vlb.dk with
      | none => rfl
      | some d =>
        cases d with
        | constantIndex l =>
          cases hu : vub.dk with
          | none => rfl
          | some d2 =>
            cases d2 with
            | constantIndex u => exact absurd ⟨hl, hu⟩ (hnc l u)
            | affineApply => rfl
            | affineFor b => rfl
            | dimOf p => rfl
            | otherInst => rfl
        | affineApply => rfl
        | affineFor b => rfl
        | dimOf p => rfl
        | otherInst => rfl
    have hkind : (match vlb.dk, vub.dk with
        | some (DefKind.constantIndex l), some (DefKind.constantIndex u) =>
            InstKind.affineForConst l u k
        | _, _ => InstKind.affineForSym k) = InstKind.affineForSym k := by
      cases hl : vlb.dk with
      | none => rfl
      | some d =>
        cases d with
        | constantIndex l =>
          cases hu : vub.dk with
          | none => rfl
          | some d2 =>
            cases d2 with
            | constantIndex u => exact absurd ⟨hl, hu⟩ (hnc l u)
            | affineApply => rfl
            | affineFor b => rfl
            | dimOf p => rfl
            | otherInst => rfl
        | affineApply => rfl
        | affineFor b => rfl
        | dimOf p => rfl
        | otherInst => rfl
    simp [insertAtIp, hip3, hops, hkind]

theorem c5_loop_form_selection_witness :
    (⟨100, MLType.index, some (DefKind.constantIndex 0)⟩ : Value).dk =
      some (DefKind.constantIndex 0) ∧
    (∃ s6, emitExpr exLoopState exForExpr =
        some (some ⟨201, MLType.index, some (DefKind.affineFor 202)⟩, s6) ∧
      alookup s6.ssaBindings 4 =
        some (some ⟨201, MLType.index, some (DefKind.affineFor 202)⟩) ∧
      getBlock s6 202 = some ⟨[], []⟩ ∧
      (∀ l u, (⟨100, MLType.index, some (DefKind.constantIndex 0)⟩ : Value).dk
          = some (DefKind.constantIndex l) →
        (⟨101, MLType.index, some (DefKind.constantIndex 10)⟩ : Value).dk =
          some (DefKind.constantIndex u) →
        cursorInsts s6 = ([] : List Inst) ++
          [⟨200, InstKind.affineForConst l u 1, [],
            some ⟨201, MLType.index, some (DefKind.affineFor 202)⟩⟩]) ∧
      ((∀ l u, ¬ ((⟨100, MLType.index,
            some (DefKind.constantIndex 0)⟩ : Value).dk =
            some (DefKind.constantIndex l) ∧
          (⟨101, MLType.index, some (DefKind.constantIndex 10)⟩ : Value).dk =
            some (DefKind.constantIndex u))) →
        cursorInsts s6 = ([] : List Inst) ++
          [⟨200, InstKind.affineForSym 1, [100, 101],
            some ⟨201, MLType.index, some (DefKind.affineFor 202)⟩⟩])) :=
  ⟨rfl,
   c5_loop_form_selection exLoopState exLoopState exLoopState exLoopState 4
     (Expr.bindable 1 MLType.index) (Expr.bindable 2 MLType.index)
     (Expr.bindable 3 MLType.index)
     ⟨100, MLType.index, some (DefKind.constantIndex 0)⟩
     ⟨101, MLType.index, some (DefKind.constantIndex 10)⟩
     ⟨102, MLType.index, some (DefKind.constantIndex 1)⟩ 1 ⟨[], []⟩
     (by decide) (by decide) (by decide) (by decide) (by decide) (by decide)
     (by decide) (by decide) (by decide) (by decide) (by decide)⟩

theorem isIntElement_not_index (a : Value) (h : isIntElement a = true) :
    isIndexElement a = false := by
  unfold isIntElement at h
  unfold isIndexElement
  cases hx : getElementType a <;> rw [hx] at h <;> simp_all

theorem isFloatElement_not_index (a : Value) (h : isFloatElement a = true) :
    isIndexElement a = false := by
  unfold isFloatElement at h
  unfold isIndexElement
  cases hx : getElementType a <;> rw [hx] at h <;> simp_all

theorem isFloatElement_not_int (a : Value) (h : isFloatElement a = true) :
    isIntElement a = false := by
  unfold isFloatElement at h
  unfold isIntElement
  cases hx : getElementType a <;> rw [hx] at h <;> simp_all

theorem cursorInsts_of_getBlock (s : EmitterState) (bd : BlockData)
    (hb : getBlock s s.cursorBlock = some bd) : cursorInsts s = bd.insts := by
  simp [cursorInsts, hb]

theorem cursorInsts_createOpV (s : EmitterState) (k : InstKind)
    (ops : List Nat) (ty : MLType) (dk : Option DefKind) (bd : BlockData)
    (hb : getBlock s s.cursorBlock = some bd) (hip : s.cursorIp = none) :
    cursorInsts (createOpV s k ops ty dk).2 =
      bd.insts ++ [⟨s.nextId, k, ops, some ⟨s.nextId + 1, ty, dk⟩⟩] := by
  simp only [getBlock] at hb
  simp only [cursorInsts, getBlock, createOpV, addInst]
  rw [alookup_updateBlocks]
  simp [hb, insertAtIp, hip]

/-- C3: operator lowering dispatches on the operand's element category.
Index-element `add`/`sub` build a composed affine-map application whose
result expression is `d0 + d1` resp. `d0 - d1` (not a plain arithmetic
instruction); integer-element operands build the integer add/sub
instruction; float-element operands the float instruction; `mul` never
produces an affine form — every non-float operand (index included) builds
the integer multiply and float operands the float multiply; and
vector/memref operands classify by their element type, not the container
type. -/
theorem c3_operator_lowering_dispatch (s : EmitterState) (bd : BlockData)
    (hb : getBlock s s.cursorBlock = some bd) (hip : s.cursorIp = none) :
    (∀ a b : Value, isIndexElement a = true →
      ∃ s', add s a b =
          some (⟨s.nextId + 1, MLType.index, some DefKind.affineApply⟩, s') ∧
        cursorInsts s' = bd.insts ++
          [⟨s.nextId, InstKind.affineApply AffRes.d0PlusD1, [a.vid, b.vid],
            some ⟨s.nextId + 1, MLType.index, some DefKind.affineApply⟩⟩]) ∧
    (∀ a b : Value, isIndexElement a = true →
      ∃ s', sub s a b =
          some (⟨s.nextId + 1, MLType.index, some DefKind.affineApply⟩, s') ∧
        cursorInsts s' = bd.insts ++
          [⟨s.nextId, InstKind.affineApply AffRes.d0MinusD1, [a.vid, b.vid],
            some ⟨s.nextId + 1, MLType.index, some DefKind.affineApply⟩⟩]) ∧
    (∀ a b : Value, isIntElement a = true →
      ∃ s', add s a b =
          some (⟨s.nextId + 1, a.ty, some DefKind.otherInst⟩, s') ∧
        cursorInsts s' = bd.insts ++
          [⟨s.nextId, InstKind.addi, [a.vid, b.vid],
            some ⟨s.nextId + 1, a.ty, some DefKind.otherInst⟩⟩]) ∧
    (∀ a b : Value, isIntElement a = true →
      ∃ s', sub s a b =
          some (⟨s.nextId + 1, a.ty, some DefKind.otherInst⟩, s') ∧
        cursorInsts s' = bd.insts ++
          [⟨s.nextId, InstKind.subi, [a.vid, b.vid],
            some ⟨s.nextId + 1, a.ty, some DefKind.otherInst⟩⟩]) ∧
    (∀ a b : Value, isFloatElement a = true →
      ∃ s', add s a b =
          some (⟨s.nextId + 1, a.ty, some DefKind.otherInst⟩, s') ∧
        cursorInsts s' = bd.insts ++
          [⟨s.nextId, InstKind.addf, [a.vid, b.vid],
            some ⟨s.nextId + 1, a.ty, some DefKind.otherInst⟩⟩]) ∧
    (∀ a b : Value, isFloatElement a = true →
      ∃ s', sub s a b =
          some (⟨s.nextId + 1, a.ty, some DefKind.otherInst⟩, s') ∧
        cursorInsts s' = bd.insts ++
          [⟨s.nextId, InstKind.subf, [a.vid, b.vid],
            some ⟨s.nextId + 1, a.ty, some DefKind.otherInst⟩⟩]) ∧
    (∀ a b : Value, isFloatElement a = false →
      ∃ s', mul s a b = (⟨s.nextId + 1, a.ty, some DefKind.otherInst⟩, s') ∧
        cursorInsts s' = bd.insts ++
          [⟨s.nextId, InstKind.muli, [a.vid, b.vid],
            some ⟨s.nextId + 1, a.ty, some DefKind.otherInst⟩⟩]) ∧
    (∀ a b : Value, isFloatElement a = true →
      ∃ s', mul s a b = (⟨s.nextId + 1, a.ty, some DefKind.otherInst⟩, s') ∧
        cursorInsts s' = bd.insts ++
          [⟨s.nextId, InstKind.mulf, [a.vid, b.vid],
            some ⟨s.nextId + 1, a.ty, some DefKind.otherInst⟩⟩]) ∧
    (∀ i t dkv, getElementType ⟨i, MLType.vector t, dkv⟩ = t) ∧
    (∀ i sh t dkv, getElementType ⟨i, MLType.memref sh t, dkv⟩ = t) := by
  refine ⟨?_, ?_, ?_, ?_, ?_, ?_, ?_, ?_, ?_, ?_⟩
  · intro a b hidx
    refine ⟨(createOpV s (InstKind.affineApply AffRes.d0PlusD1) [a.vid, b.vid]
        MLType.index (some DefKind.affineApply)).2, ?_, ?_⟩
    · simp only [add, hidx, if_true, makeComposedAffineApply]
      rfl
    · exact cursorInsts_createOpV s _ _ _ _ bd hb hip
  · intro a b hidx
    refine ⟨(createOpV s (InstKind.affineApply AffRes.d0MinusD1) [a.vid, b.vid]
        MLType.index (some DefKind.affineApply)).2, ?_, ?_⟩
    · simp only [sub, hidx, if_true, makeComposedAffineApply]
      rfl
    · exact cursorInsts_createOpV s _ _ _ _ bd hb hip
  · intro a b hint
    refine ⟨(createOpV s InstKind.addi [a.vid, b.vid] a.ty
        (some DefKind.otherInst)).2, ?_, ?_⟩
    · simp only [add, isIntElement_not_index a hint, hint, if_true]
      rfl
    · exact cursorInsts_createOpV s _ _ _ _ bd hb hip
  · intro a b hint
    refine ⟨(createOpV s InstKind.subi [a.vid, b.vid] a.ty
        (some DefKind.otherInst)).2, ?_, ?_⟩
    · simp only [sub, isIntElement_not_index a hint, hint, if_true]
      rfl
    · exact cursorInsts_createOpV s _ _ _ _ bd hb hip
  · intro a b hflt
    refine ⟨(createOpV s InstKind.addf [a.vid, b.vid] a.ty
        (some DefKind.otherInst)).2, ?_, ?_⟩
    · simp only [add, isFloatElement_not_index a hflt,
        isFloatElement_not_int a hflt, hflt, if_true]
      rfl
    · exact cursorInsts_createOpV s _ _ _ _ bd hb hip
  · intro a b hflt
    refine ⟨(createOpV s InstKind.subf [a.vid, b.vid] a.ty
        (some DefKind.otherInst)).2, ?_, ?_⟩
    · simp only [sub, isFloatElement_not_index a hflt,
        isFloatElement_not_int a hflt, hflt, if_true]
      rfl
    · exact cursorInsts_createOpV s _ _ _ _ bd hb hip
  · intro a b hnf
    refine ⟨(createOpV s InstKind.muli [a.vid, b.vid] a.ty
        (some DefKind.otherInst)).2, ?_, ?_⟩
    · simp only [mul, hnf]
      rfl
    · exact cursorInsts_createOpV s _ _ _ _ bd hb hip
  · intro a b hflt
    refine ⟨(createOpV s InstKind.mulf [a.vid, b.vid] a.ty
        (some DefKind.otherInst)).2, ?_, ?_⟩
    · simp only [mul, hflt]
      rfl
    · exact cursorInsts_createOpV s _ _ _ _ bd hb hip
  · intro i t dkv
    rfl
  · intro i sh t dkv
    rfl

theorem c3_operator_lowering_dispatch_witness :
    isIndexElement ⟨100, MLType.index, none⟩ = true ∧
    (∃ s', add exOpState ⟨100, MLType.index, none⟩ ⟨101, MLType.index, none⟩ =
        some (⟨201, MLType.index, some DefKind.affineApply⟩, s') ∧
      cursorInsts s' = ([] : List Inst) ++
        [⟨200, InstKind.affineApply AffRes.d0PlusD1, [100, 101],
          some ⟨201, MLType.index, some DefKind.affineApply⟩⟩]) :=
  ⟨by decide,
   (c3_operator_lowering_dispatch exOpState ⟨[], []⟩ (by decide)
     (by decide)).1 ⟨100, MLType.index, none⟩ ⟨101, MLType.index, none⟩
     (by decide)⟩

theorem bindBlockArgs_blockBindings :
    ∀ (args : List Expr) (tys : List MLType) (s : EmitterState) (irBid : Nat)
      (s' : EmitterState), bindBlockArgs s irBid args tys = some s' →
      s'.blockBindings = s.blockBindings
  | [], [], s, irBid, s' => by
    intro h
    simp only [bindBlockArgs] at h
    rw [← Option.some.inj h]
  | [], t :: ts, s, irBid, s' => by
    intro h
    simp only [bindBlockArgs] at h
    rw [← Option.some.inj h]
  | a :: as_, [], s, irBid, s' => by
    intro h
    simp only [bindBlockArgs] at h
    rw [← Option.some.inj h]
  | a :: as_, t :: ts, s, irBid, s' => by
    intro h
    simp only [bindBlockArgs] at h
    split at h
    · cases hb : bind (addArgument s irBid t).2 a.eid (addArgument s irBid t).1 with
      | none => rw [hb] at h; exact absurd h (by simp)
      | some s2 =>
        rw [hb] at h
        have h2 := bindBlockArgs_blockBindings as_ ts s2 irBid s' h
        rw [h2]
        obtain ⟨hop, rfl⟩ := insertBinding_some _ _ _ _ hb
        rfl
    · exact absurd h (by simp)

theorem bindBlockArgs_append :
    ∀ (pre : List Expr) (preT : List MLType) (u : List Expr)
      (v : List MLType) (s : EmitterState) (irBid : Nat),
      pre.length = preT.length →
      bindBlockArgs s irBid (pre ++ u) (preT ++ v) =
        (match bindBlockArgs s irBid pre preT with
        | none => none
        | some s1 => bindBlockArgs s1 irBid u v)
  | [], [], u, v, s, irBid => by
    intro hlen
    simp only [List.nil_append, bindBlockArgs]
  | [], t :: ts, u, v, s, irBid => by intro hlen; cases hlen
  | a :: as_, [], u, v, s, irBid => by intro hlen; cases hlen
  | a :: as_, t :: ts, u, v, s, irBid => by
    intro hlen
    simp only [List.cons_append, bindBlockArgs]
    split
    · cases hb : bind (addArgument s irBid t).2 a.eid (addArgument s irBid t).1 with
      | none => rfl
      | some s2 =>
        exact bindBlockArgs_append as_ ts u v s2 irBid (by simpa using hlen)
    · rfl

theorem bindBlockArgs_run :
    ∀ (args : List Expr) (tys : List MLType) (s : EmitterState) (irBid : Nat),
    (∀ x ∈ args, x.isUnboundKind = true) →
    (args.map Expr.eid).Nodup →
    (∀ x ∈ args, alookup s.ssaBindings x.eid = none) →
    args.length = tys.length →
    ∃ s', bindBlockArgs s irBid args tys = some s' ∧
      s'.blockBindings = s.blockBindings ∧
      (∀ j (hja : j < args.length) (hjt : j < tys.length),
        alookup s'.ssaBindings (args.get ⟨j, hja⟩).eid =
          some (some ⟨s.nextId + j, tys.get ⟨j, hjt⟩, none⟩)) ∧
      (∀ k b, alookup s.ssaBindings k = some b →
        alookup s'.ssaBindings k = some b) ∧
      (∀ bd, getBlock s irBid = some bd →
        getBlock s' irBid = some ⟨bd.args ++ mkArgVals s.nextId tys, bd.insts⟩)
  | [], [], s, irBid => by
    intro hk hnd hun hlen
    refine ⟨s, rfl, rfl, ?_, fun k b h => h, ?_⟩
    · intro j hja hjt
      exact absurd hja (by simp)
    · intro bd hbd
      simpa [mkArgVals] using hbd
  | [], t :: ts, s, irBid => by intro _ _ _ hlen; cases hlen
  | a :: as_, [], s, irBid => by intro _ _ _ hlen; cases hlen
  | a :: as_, t :: ts, s, irBid => by
    intro hk hnd hun hlen
    have hka : a.isUnboundKind = true := hk a (by simp)
    have huna : alookup s.ssaBindings a.eid = none := hun a (by simp)
    simp only [List.map_cons, List.nodup_cons] at hnd
    obtain ⟨hna, hndrest⟩ := hnd
    -- the head step
    have hbind : bind (addArgument s irBid t).2 a.eid (addArgument s irBid t).1 =
        some { (addArgument s irBid t).2 with
          ssaBindings := (a.eid, some (addArgument s irBid t).1) ::
            (addArgument s irBid t).2.ssaBindings } := by
      unfold bind insertBinding
      have : alookup (addArgument s irBid t).2.ssaBindings a.eid = none := huna
      rw [this]
    set sB := { (addArgument s irBid t).2 with
      ssaBindings := (a.eid, some (addArgument s irBid t).1) ::
        (addArgument s irBid t).2.ssaBindings } with hsB
    have hrest := bindBlockArgs_run as_ ts sB irBid
      (fun x hx => hk x (by simp [hx]))
      hndrest
      (fun x hx => by
        have hne : a.eid ≠ x.eid := by
          intro he
          exact hna (by
            rw [he]
            exact List.mem_map_of_mem Expr.eid hx)
        have hxs : alookup s.ssaBindings x.eid = none := hun x (by simp [hx])
        simp only [hsB, alookup_cons, if_neg hne]
        exact hxs)
      (by simpa using hlen)
    obtain ⟨s', hrun, hbb, hget, hmono, hblocks⟩ := hrest
    refine ⟨s', ?_, ?_, ?_, ?_, ?_⟩
    · simp only [bindBlockArgs, hka, if_true]
      rw [hbind]
      exact hrun
    · rw [hbb]
      rfl
    · intro j hja hjt
      cases j with
      | zero =>
        have h0 : alookup sB.ssaBindings a.eid = some (some ⟨s.nextId, t, none⟩) := by
          simp [hsB, alookup_cons, addArgument]
        have := hmono a.eid (some ⟨s.nextId, t, none⟩) h0
        simpa using this
      | succ j2 =>
        have hja2 : j2 < as_.length := by simpa using hja
        have hjt2 : j2 < ts.length := by simpa using hjt
        have := hget j2 hja2 hjt2
        have hnx : sB.nextId = s.nextId + 1 := rfl
        rw [hnx] at this
        have harith : s.nextId + 1 + j2 = s.nextId + (j2 + 1) := by omega
        rw [harith] at this
        simpa using this
    · intro k b hkb
      refine hmono k b ?_
      have hne : a.eid ≠ k := by
        intro he
        rw [← he] at hkb
        rw [huna] at hkb
        cases hkb
      simp only [hsB, alookup_cons, if_neg hne]
      exact hkb
    · intro bd hbd
      have hbd2 : getBlock sB irBid = some ⟨bd.args ++ [⟨s.nextId, t, none⟩], bd.insts⟩ := by
        simp only [hsB, getBlock, addArgument]
        simp only [getBlock] at hbd
        rw [alookup_updateBlocks]
        simp [hbd]
      have := hblocks _ hbd2
      have hnx : sB.nextId = s.nextId + 1 := rfl
      rw [hnx] at this
      simpa [mkArgVals, List.append_assoc] using this

/-- Unfolding of `emitBlock` when the block identity is already recorded:
a no-op. -/
theorem emitBlock_recorded_eq (s : EmitterState) (blk : StmtBlock) (ib : Nat)
    (hrec : alookup s.blockBindings blk.sbid = some ib) :
    emitBlock s blk = some s := by
  simp [emitBlock, hrec]

/-- Unfolding of `emitBlock` on an unrecorded block identity. -/
theorem emitBlock_fresh_eq (s : EmitterState) (blk : StmtBlock)
    (hrec : alookup s.blockBindings blk.sbid = none) :
    emitBlock s blk =
      (match bindBlockArgs
          { (createBlock s).2 with
            blockBindings := (blk.sbid, (createBlock s).1) ::
              (createBlock s).2.blockBindings }
          (createBlock s).1 blk.args blk.argTypes with
      | none => none
      | some s3 =>
        match emitStmts s3 blk.body with
        | none => none
        | some s4 => some { s4 with cursorBlock := s.cursorBlock,
                                    cursorIp := s.cursorIp }) := by
  simp [emitBlock, hrec]

/-- C8: `emitBlock` is idempotent on block identity.  A second call on the
same block identity is an exact no-op (so exactly one IR block is created
and the arguments are bound exactly once); an argument node that is not in
`Unbound` state is a fatal invariant violation (at whatever position it
occurs, once the earlier arguments bind successfully); and on a successful
fresh emission each declared argument node is bound to the corresponding
freshly created argument value of the new IR block, in positional order. -/
theorem c8_emitBlock_idempotent (s : EmitterState) (blk : StmtBlock) :
    (∀ s', emitBlock s blk = some s' → emitBlock s' blk = some s') ∧
    (∀ ib, alookup s.blockBindings blk.sbid = some ib →
      emitBlock s blk = some s) ∧
    (∀ pre a rest preT t restT,
      alookup s.blockBindings blk.sbid = none →
      blk.args = pre ++ a :: rest → blk.argTypes = preT ++ t :: restT →
      pre.length = preT.length →
      (∀ x ∈ pre, x.isUnboundKind = true) →
      (pre.map Expr.eid).Nodup →
      (∀ x ∈ pre, alookup s.ssaBindings x.eid = none) →
      a.isUnboundKind = false →
      emitBlock s blk = none) ∧
    (∀ s', alookup s.blockBindings blk.sbid = none →
      (∀ x ∈ blk.args, x.isUnboundKind = true) →
      (blk.args.map Expr.eid).Nodup →
      (∀ x ∈ blk.args, alookup s.ssaBindings x.eid = none) →
      blk.args.length = blk.argTypes.length →
      getBlock s s.nextId = none →
      emitBlock s blk = some s' →
      alookup s'.blockBindings blk.sbid = some s.nextId ∧
      (∀ j (hja : j < blk.args.length) (hjt : j < blk.argTypes.length),
        alookup s'.ssaBindings (blk.args.get ⟨j, hja⟩).eid =
          some (some ⟨s.nextId + 1 + j, blk.argTypes.get ⟨j, hjt⟩, none⟩)) ∧
      (∃ bd, getBlock s' s.nextId = some bd ∧
        bd.args = mkArgVals (s.nextId + 1) blk.argTypes)) := by
  refine ⟨?_, ?_, ?_, ?_⟩
  · intro s' h
    cases hrec : alookup s.blockBindings blk.sbid with
    | some ib =>
      rw [emitBlock_recorded_eq s blk ib hrec] at h
      injection h with h1
      rw [← h1]
      exact emitBlock_recorded_eq s blk ib hrec
    | none =>
      rw [emitBlock_fresh_eq s blk hrec] at h
      cases hba : bindBlockArgs
          { (createBlock s).2 with
            blockBindings := (blk.sbid, (createBlock s).1) ::
              (createBlock s).2.blockBindings }
          (createBlock s).1 blk.args blk.argTypes with
      | none => rw [hba] at h; exact absurd h (by simp)
      | some s3 =>
        rw [hba] at h
        simp only [] at h
        cases hst : emitStmts s3 blk.body with
        | none => rw [hst] at h; exact absurd h (by simp)
        | some s4 =>
          rw [hst] at h
          injection h with h1
          have hbb3 := bindBlockArgs_blockBindings _ _ _ _ _ hba
          have hbb4 : s4.blockBindings = s3.blockBindings :=
            (emitStmts_pres s3 blk.body s4 hst).2.2.1
          have hlook : alookup s'.blockBindings blk.sbid =
              some (createBlock s).1 := by
            rw [← h1]
            show alookup s4.blockBindings blk.sbid = some (createBlock s).1
            rw [hbb4, hbb3]
            simp [alookup_cons]
          exact emitBlock_recorded_eq s' blk (createBlock s).1 hlook
  · intro ib hrec
    exact emitBlock_recorded_eq s blk ib hrec
  · intro pre a rest preT t restT hrec hargs htys hlen hkpre hnd hun hnb
    rw [emitBlock_fresh_eq s blk hrec, hargs, htys]
    rw [bindBlockArgs_append pre preT (a :: rest) (t :: restT) _ _ hlen]
    obtain ⟨s3, hrun, _, _, _, _⟩ :=
      bindBlockArgs_run pre preT
        { (createBlock s).2 with
          blockBindings := (blk.sbid, (createBlock s).1) ::
            (createBlock s).2.blockBindings }
        (createBlock s).1 hkpre hnd (fun x hx => hun x hx) hlen
    rw [hrun]
    simp only []
    simp [bindBlockArgs, hnb]
  · intro s' hrec hkall hnd hunall hlen hfresh h
    rw [emitBlock_fresh_eq s blk hrec] at h
    obtain ⟨s3, hrun, hbb3, hget3, hmono3, hblocks3⟩ :=
      bindBlockArgs_run blk.args blk.argTypes
        { (createBlock s).2 with
          blockBindings := (blk.sbid, (createBlock s).1) ::
            (createBlock s).2.blockBindings }
        (createBlock s).1 hkall hnd (fun x hx => hunall x hx) hlen
    rw [hrun] at h
    simp only [] at h
    cases hst : emitStmts s3 blk.body with
    | none => rw [hst] at h; exact absurd h (by simp)
    | some s4 =>
      rw [hst] at h
      injection h with h1
      have hpres := emitStmts_pres s3 blk.body s4 hst
      refine ⟨?_, ?_, ?_⟩
      · rw [← h1]
        show alookup s4.blockBindings blk.sbid = some s.nextId
        rw [hpres.2.2.1, hbb3]
        simp only [alookup_cons, if_pos rfl]
        rfl
      · intro j hja hjt
        have hj3 := hget3 j hja hjt
        have hj4 := hpres.2.2.2.1 _ _ hj3
        rw [← h1]
        show alookup s4.ssaBindings (blk.args.get ⟨j, hja⟩).eid = _
        have harith : s.nextId + 1 + j = s.nextId + 1 + j := rfl
        exact hj4
      · have hbd2 : getBlock
            { (createBlock s).2 with
              blockBindings := (blk.sbid, (createBlock s).1) ::
                (createBlock s).2.blockBindings }
            (createBlock s).1 = some ⟨[], []⟩ := by
          simp only [getBlock, createBlock]
          rw [alookup_append]
          simp only [getBlock] at hfresh
          simp [hfresh, alookup]
        have hbd3 := hblocks3 _ hbd2
        obtain ⟨bd4, hbd4, hargs4⟩ := hpres.2.2.2.2 _ _ hbd3
        refine ⟨bd4, ?_, ?_⟩
        · rw [← h1]
          exact hbd4
        · rw [hargs4]
          rfl

theorem c8_emitBlock_idempotent_witness :
    emitBlock exBlockState exBlock = some exBlockAfter ∧
    emitBlock exBlockAfter exBlock = some exBlockAfter :=
  ⟨by decide,
   (c8_emitBlock_idempotent exBlockState exBlock).1 exBlockAfter (by decide)⟩

theorem alookup_mem {α : Type} :
    ∀ (l : List (Nat × α)) (k : Nat) (b : α),
    alookup l k = some b → (k, b) ∈ l
  | [], k, b => by intro h; cases h
  | (k2, v) :: rest, k, b => by
    intro h
    rw [alookup_cons] at h
    by_cases hk : k2 = k
    · rw [if_pos hk] at h
      injection h with h1
      rw [← hk, h1]
      exact List.mem_cons_self _ _
    · rw [if_neg hk] at h
      exact List.mem_cons_of_mem _ (alookup_mem rest k b h)

theorem alookup_none_of_keysBelow (s : EmitterState) (h : keysBelow s)
    (k : Nat) (hk : s.nextId ≤ k) : alookup s.ssaBindings k = none := by
  cases hx : alookup s.ssaBindings k with
  | none => rfl
  | some b =>
    have hmem := alookup_mem s.ssaBindings k b hx
    have := h (k, b) hmem
    omega

theorem createOpV_if (c : Prop) [Decidable c] (s : EmitterState)
    (k1 k2 : InstKind) (o1 o2 : List Nat) (ty : MLType)
    (d1 d2 : Option DefKind) :
    (if c then createOpV s k1 o1 ty d1 else createOpV s k2 o2 ty d2) =
      createOpV s (if c then k1 else k2) (if c then o1 else o2) ty
        (if c then d1 else d2) := by
  by_cases h : c
  · simp [h]
  · simp [h]

theorem makeNewExprs_succ (s : EmitterState) (m : Nat) (ty : MLType) :
    makeNewExprs s (m + 1) ty =
      ((Expr.bindable s.nextId ty) ::
        (makeNewExprs { s with nextId := s.nextId + 1 } m ty).1,
       (makeNewExprs { s with nextId := s.nextId + 1 } m ty).2) := by
  simp [makeNewExprs, newExpr]

theorem makeNewExprs_run :
    ∀ (n : Nat) (s : EmitterState) (ty : MLType),
    (makeNewExprs s n ty).2 = { s with nextId := s.nextId + n } ∧
    (makeNewExprs s n ty).1.length = n ∧
    (∀ j, j < n →
      (makeNewExprs s n ty).1.get? j = some (Expr.bindable (s.nextId + j) ty))
  | 0, s, ty => by
    refine ⟨?_, rfl, ?_⟩
    · show s = { s with nextId := s.nextId + 0 }
      simp
    · intro j hj
      omega
  | Nat.succ m, s, ty => by
    obtain ⟨ih1, ih2, ih3⟩ := makeNewExprs_run m
      { s with nextId := s.nextId + 1 } ty
    rw [makeNewExprs_succ]
    refine ⟨?_, ?_, ?_⟩
    · rw [ih1]
      simp only []
      have harith : s.nextId + 1 + m = s.nextId + (m + 1) := by omega
      rw [harith]
    · simp [ih2]
    · intro j hj
      cases j with
      | zero =>
        simp
      | succ j2 =>
        have hj2 : j2 < m := by omega
        have hg := ih3 j2 hj2
        show (makeNewExprs { s with nextId := s.nextId + 1 } m ty).1.get? j2 = _
        rw [hg]
        simp only []
        have harith : s.nextId + 1 + j2 = s.nextId + (j2 + 1) := by omega
        rw [harith]

theorem bindZipRange_run :
    ∀ (es : List Expr) (vs : List Value) (s : EmitterState),
    (es.map Expr.eid).Nodup →
    (∀ x ∈ es, alookup s.ssaBindings x.eid = none) →
    es.length = vs.length →
    ∃ s', bindZipRange s es vs = some s' ∧
      s'.blocks = s.blocks ∧ s'.cursorBlock = s.cursorBlock ∧
      s'.cursorIp = s.cursorIp ∧ s'.nextId = s.nextId ∧
      s'.blockBindings = s.blockBindings ∧
      (∀ j (hje : j < es.length) (hjv : j < vs.length),
        alookup s'.ssaBindings (es.get ⟨j, hje⟩).eid =
          some (some (vs.get ⟨j, hjv⟩))) ∧
      (∀ k, (∀ x ∈ es, x.eid ≠ k) →
        alookup s'.ssaBindings k = alookup s.ssaBindings k) ∧
      (∀ p, p ∈ s'.ssaBindings →
        p ∈ s.ssaBindings ∨ p.1 ∈ es.map Expr.eid)
  | [], [], s => by
    intro hnd hun hlen
    refine ⟨s, rfl, rfl, rfl, rfl, rfl, rfl, ?_, fun k hk => rfl,
      fun p hp => Or.inl hp⟩
    intro j hje hjv
    exact absurd hje (by simp)
  | [], v :: vs, s => by intro _ _ hlen; cases hlen
  | e :: es, [], s => by intro _ _ hlen; cases hlen
  | e :: es, v :: vs, s => by
    intro hnd hun hlen
    simp only [List.map_cons, List.nodup_cons] at hnd
    obtain ⟨hne, hndrest⟩ := hnd
    have hune : alookup s.ssaBindings e.eid = none := hun e (by simp)
    have hbind : bind s e.eid v =
        some { s with ssaBindings := (e.eid, some v) :: s.ssaBindings } := by
      unfold bind insertBinding
      rw [hune]
    set sB := { s with ssaBindings := (e.eid, some v) :: s.ssaBindings }
      with hsB
    obtain ⟨s', hrun, hbl, hcb, hci, hni, hbb, hget, hloc, hmem⟩ :=
      bindZipRange_run es vs sB hndrest
        (fun x hx => by
          have hnex : e.eid ≠ x.eid := by
            intro he
            exact hne (by
              rw [he]
              exact List.mem_map_of_mem Expr.eid hx)
          simp only [hsB, alookup_cons, if_neg hnex]
          exact hun x (by simp [hx]))
        (by simpa using hlen)
    refine ⟨s', ?_, hbl, hcb, hci, hni, hbb, ?_, ?_, ?_⟩
    · simp only [bindZipRange]
      rw [hbind]
      exact hrun
    · intro j hje hjv
      cases j with
      | zero =>
        show alookup s'.ssaBindings e.eid = some (some v)
        have h0 : alookup sB.ssaBindings e.eid = some (some v) := by
          simp [hsB, alookup_cons]
        have hll := hloc e.eid (fun x hx hx2 =>
          hne (hx2 ▸ List.mem_map_of_mem Expr.eid hx))
        rw [hll]
        exact h0
      | succ j2 =>
        have hje2 : j2 < es.length := by simpa using hje
        have hjv2 : j2 < vs.length := by simpa using hjv
        exact hget j2 hje2 hjv2
    · intro k hk
      have h1 := hloc k (fun x hx => hk x (by simp [hx]))
      rw [h1]
      have hnek : e.eid ≠ k := hk e (by simp)
      simp [hsB, alookup_cons, if_neg hnek]
    · intro p hp
      cases hmem p hp with
      | inl hin =>
        have hin2 : p ∈ (e.eid, some v) :: s.ssaBindings := hin
        cases hin2 with
        | head => right; simp
        | tail _ htl => left; exact htl
      | inr hin =>
        right
        simp only [List.map_cons, List.mem_cons]
        right
        exact hin

theorem getBlock_createOpV (s : EmitterState) (k : InstKind) (ops : List Nat)
    (ty : MLType) (dk : Option DefKind) (bd : BlockData)
    (hb : getBlock s s.cursorBlock = some bd) (hip : s.cursorIp = none) :
    getBlock (createOpV s k ops ty dk).2 s.cursorBlock =
      some ⟨bd.args,
        bd.insts ++ [⟨s.nextId, k, ops, some ⟨s.nextId + 1, ty, dk⟩⟩]⟩ := by
  simp only [getBlock] at hb
  simp only [getBlock, createOpV, addInst]
  rw [alookup_updateBlocks]
  simp [hb, insertAtIp, hip]

theorem getMemRefSizesGo_cons (s : EmitterState) (vid0 idx : Nat) (d : Int)
    (rest : List Int) :
    getMemRefSizesGo s vid0 idx (d :: rest) =
      ((⟨s.nextId + 1, MLType.index,
          some (if isDynamicSize d then DefKind.dimOf idx
                else DefKind.constantIndex d)⟩ : Value) ::
        (getMemRefSizesGo (createOpV s
          (if isDynamicSize d then InstKind.dim idx
           else InstKind.constantIndex d)
          (if isDynamicSize d then [vid0] else []) MLType.index
          (some (if isDynamicSize d then DefKind.dimOf idx
                 else DefKind.constantIndex d))).2 vid0 (idx + 1) rest).1,
       (getMemRefSizesGo (createOpV s
          (if isDynamicSize d then InstKind.dim idx
           else InstKind.constantIndex d)
          (if isDynamicSize d then [vid0] else []) MLType.index
          (some (if isDynamicSize d then DefKind.dimOf idx
                 else DefKind.constantIndex d))).2 vid0 (idx + 1) rest).2) := by
  cases hd : isDynamicSize d with
  | true =>
    simp only [getMemRefSizesGo, hd, if_true]
    rfl
  | false =>
    simp only [getMemRefSizesGo, hd]
    rfl

theorem getMemRefSizesGo_run :
    ∀ (shape : List Int) (s : EmitterState) (vid0 idx : Nat),
    ((getMemRefSizesGo s vid0 idx shape).2.ssaBindings = s.ssaBindings) ∧
    ((getMemRefSizesGo s vid0 idx shape).2.blockBindings = s.blockBindings) ∧
    ((getMemRefSizesGo s vid0 idx shape).2.cursorBlock = s.cursorBlock) ∧
    ((getMemRefSizesGo s vid0 idx shape).2.cursorIp = s.cursorIp) ∧
    ((getMemRefSizesGo s vid0 idx shape).2.nextId =
      s.nextId + 2 * shape.length) ∧
    ((getMemRefSizesGo s vid0 idx shape).1.length = shape.length) ∧
    (∀ j d, shape.get? j = some d →
      (getMemRefSizesGo s vid0 idx shape).1.get? j =
        some ⟨s.nextId + 2 * j + 1, MLType.index,
          some (if isDynamicSize d then DefKind.dimOf (idx + j)
                else DefKind.constantIndex d)⟩) ∧
    (∀ bd, getBlock s s.cursorBlock = some bd → s.cursorIp = none →
      ∃ emitted, getBlock (getMemRefSizesGo s vid0 idx shape).2 s.cursorBlock =
          some ⟨bd.args, bd.insts ++ emitted⟩ ∧
        emitted.length = shape.length ∧
        (∀ j d, shape.get? j = some d →
          emitted.get? j = some ⟨s.nextId + 2 * j,
            (if isDynamicSize d then InstKind.dim (idx + j)
             else InstKind.constantIndex d),
            (if isDynamicSize d then [vid0] else []),
            some ⟨s.nextId + 2 * j + 1, MLType.index,
              some (if isDynamicSize d then DefKind.dimOf (idx + j)
                    else DefKind.constantIndex d)⟩⟩))
  | [], s, vid0, idx => by
    refine ⟨rfl, rfl, rfl, rfl, by simp [getMemRefSizesGo], rfl, ?_, ?_⟩
    · intro j d hj
      simp [List.get?] at hj
    · intro bd hb hip
      refine ⟨[], ?_, rfl, ?_⟩
      · simpa [getMemRefSizesGo] using hb
      · intro j d hj
        simp [List.get?] at hj
  | d :: rest, s, vid0, idx => by
    obtain ⟨ihb, ihbb, ihcb, ihci, ihn, ihlen, ihget, ihblocks⟩ :=
      getMemRefSizesGo_run rest
        (createOpV s
          (if isDynamicSize d then InstKind.dim idx
           else InstKind.constantIndex d)
          (if isDynamicSize d then [vid0] else []) MLType.index
          (some (if isDynamicSize d then DefKind.dimOf idx
                 else DefKind.constantIndex d))).2 vid0 (idx + 1)
    rw [getMemRefSizesGo_cons]
    refine ⟨?_, ?_, ?_, ?_, ?_, ?_, ?_, ?_⟩
    · rw [ihb]; rfl
    · rw [ihbb]; rfl
    · rw [ihcb]; rfl
    · rw [ihci]; rfl
    · rw [ihn]
      show s.nextId + 2 + 2 * rest.length = s.nextId + 2 * (rest.length + 1)
      omega
    · simp [ihlen]
    · intro j dj hj
      cases j with
      | zero =>
        simp only [List.get?] at hj
        injection hj with hj1
        rw [← hj1]
        show some (⟨s.nextId + 1, MLType.index, _⟩ : Value) = _
        have h0 : s.nextId + 2 * 0 + 1 = s.nextId + 1 := by omega
        have h1 : idx + 0 = idx := by omega
        rw [h0, h1]
      | succ j2 =>
        simp only [List.get?] at hj
        have hg := ihget j2 dj hj
        show (getMemRefSizesGo _ vid0 (idx + 1) rest).1.get? j2 = _
        rw [hg]
        show some (⟨s.nextId + 2 + 2 * j2 + 1, MLType.index, _⟩ : Value) = _
        have h0 : s.nextId + 2 + 2 * j2 + 1 = s.nextId + 2 * (j2 + 1) + 1 := by
          omega
        have h1 : idx + 1 + j2 = idx + (j2 + 1) := by omega
        rw [h0, h1]
    · intro bd hb hip
      have hbA := getBlock_createOpV s
        (if isDynamicSize d then InstKind.dim idx
         else InstKind.constantIndex d)
        (if isDynamicSize d then [vid0] else []) MLType.index
        (some (if isDynamicSize d then DefKind.dimOf idx
               else DefKind.constantIndex d)) bd hb hip
      obtain ⟨emittedR, hcR, hlenR, hgetR⟩ := ihblocks
        ⟨bd.args, bd.insts ++
          [⟨s.nextId,
            (if isDynamicSize d then InstKind.dim idx
             else InstKind.constantIndex d),
            (if isDynamicSize d then [vid0] else []),
            some ⟨s.nextId + 1, MLType.index,
              some (if isDynamicSize d then DefKind.dimOf idx
                    else DefKind.constantIndex d)⟩⟩]⟩
        (by exact hbA) (by exact hip)
      refine ⟨⟨s.nextId,
        (if isDynamicSize d then InstKind.dim (idx + 0)
         else InstKind.constantIndex d),
        (if isDynamicSize d then [vid0] else []),
        some ⟨s.nextId + 2 * 0 + 1, MLType.index,
          some (if isDynamicSize d then DefKind.dimOf (idx + 0)
                else DefKind.constantIndex d)⟩⟩ :: emittedR, ?_, ?_, ?_⟩
      · show getBlock _ s.cursorBlock = _
        rw [show (s.cursorBlock) = (createOpV s
            (if isDynamicSize d then InstKind.dim idx
             else InstKind.constantIndex d)
            (if isDynamicSize d then [vid0] else []) MLType.index
            (some (if isDynamicSize d then DefKind.dimOf idx
                   else DefKind.constantIndex d))).2.cursorBlock from rfl]
        rw [hcR]
        simp only []
        have h1 : idx + 0 = idx := by omega
        have h0 : s.nextId + 2 * 0 + 1 = s.nextId + 1 := by omega
        rw [h1, h0]
        simp
      · simp [hlenR]
      · intro j dj hj
        cases j with
        | zero =>
          simp only [List.get?] at hj
          injection hj with hj1
          rw [← hj1]
          show some _ = some (⟨s.nextId + 2 * 0, _, _, _⟩ : Inst)
          have h0 : s.nextId + 2 * 0 = s.nextId := by omega
          rw [h0]
        | succ j2 =>
          simp only [List.get?] at hj
          have hg := hgetR j2 dj hj
          show emittedR.get? j2 = _
          rw [hg]
          show some (⟨s.nextId + 2 + 2 * j2,
            (if isDynamicSize dj then InstKind.dim (idx + 1 + j2)
             else InstKind.constantIndex dj),
            (if isDynamicSize dj then [vid0] else []),
            some ⟨s.nextId + 2 + 2 * j2 + 1, MLType.index,
              some (if isDynamicSize dj then DefKind.dimOf (idx + 1 + j2)
                    else DefKind.constantIndex dj)⟩⟩ : Inst) = _
          have h0 : s.nextId + 2 + 2 * j2 = s.nextId + 2 * (j2 + 1) := by omega
          have h2 : idx + 1 + j2 = idx + (j2 + 1) := by omega
          rw [h0, h2]

theorem makeNewExprs_map_eid :
    ∀ (n : Nat) (s : EmitterState) (ty : MLType),
    (makeNewExprs s n ty).1.map Expr.eid = List.range' s.nextId n
  | 0, s, ty => rfl
  | Nat.succ m, s, ty => by
    rw [makeNewExprs_succ]
    simp only [List.map_cons, Expr.eid]
    rw [makeNewExprs_map_eid m { s with nextId := s.nextId + 1 } ty]
    rfl

theorem bindConstantIndex_eq (s : EmitterState) (e : Expr) (k : Int)
    (hun : alookup s.ssaBindings e.eid = none) :
    bindConstantIndex s e k = some
      { (createOpV s (InstKind.constantIndex k) [] MLType.index
          (some (DefKind.constantIndex k))).2 with
        ssaBindings := (e.eid, some ⟨s.nextId + 1, MLType.index,
          some (DefKind.constantIndex k)⟩) :: s.ssaBindings } := by
  have h2 : alookup (createOpV s (InstKind.constantIndex k) [] MLType.index
      (some (DefKind.constantIndex k))).2.ssaBindings e.eid = none := hun
  simp only [bindConstantIndex, bind, insertBinding, h2]
  rfl

theorem bindConstantIndex_run (s : EmitterState) (e : Expr) (k : Int)
    (hun : alookup s.ssaBindings e.eid = none) :
    ∃ s2, bindConstantIndex s e k = some s2 ∧
      s2.ssaBindings = (e.eid, some ⟨s.nextId + 1, MLType.index,
        some (DefKind.constantIndex k)⟩) :: s.ssaBindings ∧
      s2.cursorBlock = s.cursorBlock ∧
      s2.cursorIp = s.cursorIp ∧
      s2.blockBindings = s.blockBindings ∧
      s2.nextId = s.nextId + 2 ∧
      (∀ bd, getBlock s s.cursorBlock = some bd → s.cursorIp = none →
        getBlock s2 s.cursorBlock = some ⟨bd.args, bd.insts ++
          [⟨s.nextId, InstKind.constantIndex k, [],
            some ⟨s.nextId + 1, MLType.index,
              some (DefKind.constantIndex k)⟩⟩]⟩) := by
  refine ⟨_, bindConstantIndex_eq s e k hun, rfl, rfl, rfl, rfl, rfl, ?_⟩
  intro bd hb hip
  exact getBlock_createOpV s (InstKind.constantIndex k) [] MLType.index
    (some (DefKind.constantIndex k)) bd hb hip

theorem makeBoundMemRefShape_run (s : EmitterState) (memRef : Value)
    (shape : List Int) (et : MLType)
    (hty : memRef.ty = MLType.memref shape et)
    (hkb : keysBelow s) :
    ∃ s', makeBoundMemRefShape s memRef =
        some ((makeNewExprs s shape.length MLType.index).1, s') ∧
      s'.cursorBlock = s.cursorBlock ∧
      s'.cursorIp = s.cursorIp ∧
      s'.blockBindings = s.blockBindings ∧
      s'.nextId = s.nextId + 3 * shape.length ∧
      keysBelow s' ∧
      (∀ j d, shape.get? j = some d →
        alookup s'.ssaBindings (s.nextId + j) =
          some (some ⟨s.nextId + shape.length + 2 * j + 1, MLType.index,
            some (if isDynamicSize d then DefKind.dimOf j
                  else DefKind.constantIndex d)⟩)) ∧
      (∀ k, k < s.nextId →
        alookup s'.ssaBindings k = alookup s.ssaBindings k) ∧
      (∀ bd, getBlock s s.cursorBlock = some bd → s.cursorIp = none →
        ∃ emitted,
          getBlock s' s.cursorBlock = some ⟨bd.args, bd.insts ++ emitted⟩ ∧
          emitted.length = shape.length ∧
          (∀ j d, shape.get? j = some d →
            emitted.get? j = some ⟨s.nextId + shape.length + 2 * j,
              (if isDynamicSize d then InstKind.dim j
               else InstKind.constantIndex d),
              (if isDynamicSize d then [memRef.vid] else []),
              some ⟨s.nextId + shape.length + 2 * j + 1, MLType.index,
                some (if isDynamicSize d then DefKind.dimOf j
                      else DefKind.constantIndex d)⟩⟩)) := by
  obtain ⟨hmk2, hmklen, hmkget⟩ := makeNewExprs_run shape.length s MLType.index
  obtain ⟨hgb, hgbb, hgcb, hgci, hgn, hglen, hgget, hgblocks⟩ :=
    getMemRefSizesGo_run shape { s with nextId := s.nextId + shape.length }
      memRef.vid 0
  have hsizes : getMemRefSizes { s with nextId := s.nextId + shape.length }
      memRef = some
        ((getMemRefSizesGo { s with nextId := s.nextId + shape.length }
            memRef.vid 0 shape).1,
         (getMemRefSizesGo { s with nextId := s.nextId + shape.length }
            memRef.vid 0 shape).2) := by
    unfold getMemRefSizes
    rw [hty]
  have hlen : (makeNewExprs s shape.length MLType.index).1.length =
      (getMemRefSizesGo { s with nextId := s.nextId + shape.length }
        memRef.vid 0 shape).1.length := by
    rw [hmklen, hglen]
  have hnd : ((makeNewExprs s shape.length MLType.index).1.map Expr.eid).Nodup := by
    rw [makeNewExprs_map_eid]
    exact List.nodup_range' _ _
  have hunb : ∀ x ∈ (makeNewExprs s shape.length MLType.index).1,
      alookup (getMemRefSizesGo { s with nextId := s.nextId + shape.length }
        memRef.vid 0 shape).2.ssaBindings x.eid = none := by
    intro x hx
    have hx2 : x.eid ∈ List.range' s.nextId shape.length := by
      rw [← makeNewExprs_map_eid shape.length s MLType.index]
      exact List.mem_map_of_mem Expr.eid hx
    have hx3 := (List.mem_range'_1.mp hx2).1
    rw [hgb]
    exact alookup_none_of_keysBelow s hkb x.eid hx3
  obtain ⟨s', hzrun, hzbl, hzcb, hzci, hzn, hzbb, hzget, hzloc, hzmem⟩ :=
    bindZipRange_run (makeNewExprs s shape.length MLType.index).1
      (getMemRefSizesGo { s with nextId := s.nextId + shape.length }
        memRef.vid 0 shape).1
      (getMemRefSizesGo { s with nextId := s.nextId + shape.length }
        memRef.vid 0 shape).2 hnd hunb hlen
  have hn' : s'.nextId = s.nextId + 3 * shape.length := by
    rw [hzn, hgn]
    show s.nextId + shape.length + 2 * shape.length =
      s.nextId + 3 * shape.length
    omega
  have heq : makeBoundMemRefShape s memRef =
      some ((makeNewExprs s shape.length MLType.index).1, s') := by
    unfold makeBoundMemRefShape
    rw [hty]
    simp only []
    rw [hmk2, hsizes]
    simp only []
    rw [if_pos hlen, hzrun]
  refine ⟨s', heq, ?_, ?_, ?_, hn', ?_, ?_, ?_, ?_⟩
  · rw [hzcb, hgcb]
  · rw [hzci, hgci]
  · rw [hzbb, hgbb]
  · intro p hp
    show p.1 < s'.nextId
    rw [hn']
    cases hzmem p hp with
    | inl hin =>
      rw [hgb] at hin
      have := hkb p hin
      omega
    | inr hin =>
      rw [makeNewExprs_map_eid] at hin
      have := (List.mem_range'_1.mp hin).2
      omega
  · intro j d hj
    have hjlt : j < shape.length := (List.get?_eq_some.mp hj).1
    have hje : j < (makeNewExprs s shape.length MLType.index).1.length := by
      rw [hmklen]
      exact hjlt
    have hjv : j < (getMemRefSizesGo { s with nextId := s.nextId + shape.length }
        memRef.vid 0 shape).1.length := by
      rw [hglen]
      exact hjlt
    have h1 := hzget j hje hjv
    have he : (makeNewExprs s shape.length MLType.index).1.get ⟨j, hje⟩ =
        Expr.bindable (s.nextId + j) MLType.index := by
      have h2 := hmkget j hjlt
      rw [List.get?_eq_get hje] at h2
      injection h2
    have hv : (getMemRefSizesGo { s with nextId := s.nextId + shape.length }
        memRef.vid 0 shape).1.get ⟨j, hjv⟩ =
        ⟨s.nextId + shape.length + 2 * j + 1, MLType.index,
          some (if isDynamicSize d then DefKind.dimOf j
                else DefKind.constantIndex d)⟩ := by
      have h2 := hgget j d hj
      rw [List.get?_eq_get hjv] at h2
      injection h2 with h3
      rw [h3]
      show (⟨s.nextId + shape.length + 2 * j + 1, MLType.index,
        some (if isDynamicSize d then DefKind.dimOf (0 + j)
              else DefKind.constantIndex d)⟩ : Value) = _
      rw [Nat.zero_add]
    rw [he, hv] at h1
    exact h1
  · intro k hk
    have hne : ∀ x ∈ (makeNewExprs s shape.length MLType.index).1,
        x.eid ≠ k := by
      intro x hx
      have hx2 : x.eid ∈ List.range' s.nextId shape.length := by
        rw [← makeNewExprs_map_eid shape.length s MLType.index]
        exact List.mem_map_of_mem Expr.eid hx
      have := (List.mem_range'_1.mp hx2).1
      omega
    rw [hzloc k hne, hgb]
  · intro bd hb hip
    obtain ⟨emitted, hce, hle, hge⟩ := hgblocks bd (by exact hb) (by exact hip)
    refine ⟨emitted, ?_, hle, ?_⟩
    · have hbl2 : getBlock s' s.cursorBlock =
          getBlock (getMemRefSizesGo { s with nextId := s.nextId + shape.length }
            memRef.vid 0 shape).2 s.cursorBlock := by
        simp only [getBlock, hzbl]
      rw [hbl2]
      exact hce
    · intro j d hj
      have hg := hge j d hj
      rw [hg]
      show some (⟨s.nextId + shape.length + 2 * j,
        (if isDynamicSize d then InstKind.dim (0 + j)
         else InstKind.constantIndex d),
        (if isDynamicSize d then [memRef.vid] else []),
        some ⟨s.nextId + shape.length + 2 * j + 1, MLType.index,
          some (if isDynamicSize d then DefKind.dimOf (0 + j)
                else DefKind.constantIndex d)⟩⟩ : Inst) = _
      rw [Nat.zero_add]

/-- C9: for every rank-N buffer, `makeBoundMemRefView` returns lower bounds
equal to N copies of a node bound to the zero index constant, steps equal
to N copies of a node bound to the one index constant, and upper bounds
equal to N freshly bound nodes where dimension `j` is bound to a static
size constant if the shape entry at `j` is non-negative and to a runtime
`DimOp` size query against the buffer if it is negative, with the
per-dimension size instructions emitted in ascending dimension order. -/
theorem c9_memref_view (s : EmitterState) (memRef : Value) (shape : List Int)
    (et : MLType) (bd : BlockData)
    (hty : memRef.ty = MLType.memref shape et)
    (hkb : keysBelow s)
    (hb : getBlock s s.cursorBlock = some bd)
    (hip : s.cursorIp = none) :
    ∃ lbs ubs steps s',
      makeBoundMemRefView s memRef = some ((lbs, ubs, steps), s') ∧
      lbs = List.replicate shape.length (Expr.bindable s.nextId MLType.index) ∧
      alookup s'.ssaBindings s.nextId = some (some ⟨s.nextId + 2,
        MLType.index, some (DefKind.constantIndex 0)⟩) ∧
      steps = List.replicate shape.length
        (Expr.bindable (s.nextId + 3 + 3 * shape.length) MLType.index) ∧
      alookup s'.ssaBindings (s.nextId + 3 + 3 * shape.length) =
        some (some ⟨s.nextId + 5 + 3 * shape.length, MLType.index,
          some (DefKind.constantIndex 1)⟩) ∧
      ubs.length = shape.length ∧
      (∀ j d, shape.get? j = some d →
        ubs.get? j = some (Expr.bindable (s.nextId + 3 + j) MLType.index) ∧
        alookup s'.ssaBindings (s.nextId + 3 + j) =
          some (some ⟨s.nextId + 4 + shape.length + 2 * j, MLType.index,
            some (if isDynamicSize d then DefKind.dimOf j
                  else DefKind.constantIndex d)⟩)) ∧
      (∃ sizeInsts,
        getBlock s' s.cursorBlock = some ⟨bd.args, bd.insts ++
          (⟨s.nextId + 1, InstKind.constantIndex 0, [],
              some ⟨s.nextId + 2, MLType.index,
                some (DefKind.constantIndex 0)⟩⟩ ::
            (sizeInsts ++
             [⟨s.nextId + 4 + 3 * shape.length, InstKind.constantIndex 1, [],
                some ⟨s.nextId + 5 + 3 * shape.length, MLType.index,
                  some (DefKind.constantIndex 1)⟩⟩]))⟩ ∧
        sizeInsts.length = shape.length ∧
        (∀ j d, shape.get? j = some d →
          sizeInsts.get? j = some ⟨s.nextId + 3 + shape.length + 2 * j,
            (if isDynamicSize d then InstKind.dim j
             else InstKind.constantIndex d),
            (if isDynamicSize d then [memRef.vid] else []),
            some ⟨s.nextId + 4 + shape.length + 2 * j, MLType.index,
              some (if isDynamicSize d then DefKind.dimOf j
                    else DefKind.constantIndex d)⟩⟩)) := by
  have hz0 : alookup { s with nextId := s.nextId + 1 }.ssaBindings
      (Expr.bindable s.nextId MLType.index).eid = none :=
    alookup_none_of_keysBelow s hkb s.nextId (Nat.le_refl _)
  obtain ⟨s2, h2eq, h2b, h2cb, h2ci, h2bb, h2n, h2blocks⟩ :=
    bindConstantIndex_run { s with nextId := s.nextId + 1 }
      (Expr.bindable s.nextId MLType.index) 0 hz0
  have h2n' : s2.nextId = s.nextId + 3 := by
    rw [h2n]
  have hkb2 : keysBelow s2 := by
    intro p hp
    rw [h2b] at hp
    show p.1 < s2.nextId
    rw [h2n']
    cases hp with
    | head =>
      show s.nextId < s.nextId + 3
      omega
    | tail _ htl =>
      have := hkb p htl
      omega
  obtain ⟨s3, h3eq, h3cb, h3ci, h3bb, h3n, hkb3, h3bind, h3loc, h3blocks⟩ :=
    makeBoundMemRefShape_run s2 memRef shape et hty hkb2
  have h3n' : s3.nextId = s.nextId + 3 + 3 * shape.length := by
    rw [h3n, h2n']
  obtain ⟨hmk2st, hmk2len, hmk2get⟩ :=
    makeNewExprs_run shape.length s2 MLType.index
  have hz1 : alookup { s3 with nextId := s3.nextId + 1 }.ssaBindings
      (Expr.bindable s3.nextId MLType.index).eid = none :=
    alookup_none_of_keysBelow s3 hkb3 s3.nextId (Nat.le_refl _)
  obtain ⟨s5, h5eq, h5b, h5cb, h5ci, h5bb, h5n, h5blocks⟩ :=
    bindConstantIndex_run { s3 with nextId := s3.nextId + 1 }
      (Expr.bindable s3.nextId MLType.index) 1 hz1
  have hview : makeBoundMemRefView s memRef = some
      ((List.replicate shape.length (Expr.bindable s.nextId MLType.index),
        (makeNewExprs s2 shape.length MLType.index).1,
        List.replicate shape.length (Expr.bindable s3.nextId MLType.index)),
       s5) := by
    simp only [makeBoundMemRefView, hty, newExpr]
    rw [h2eq]
    simp only []
    rw [h3eq]
    simp only []
    rw [h5eq]
  refine ⟨_, _, _, s5, hview, rfl, ?_, ?_, ?_, hmk2len, ?_, ?_⟩
  · have hv2 : alookup s2.ssaBindings s.nextId = some (some ⟨s.nextId + 2,
        MLType.index, some (DefKind.constantIndex 0)⟩) := by
      rw [h2b, alookup_cons,
        if_pos (show (Expr.bindable s.nextId MLType.index).eid = s.nextId
          from rfl)]
    rw [h5b, alookup_cons,
      if_neg (show ¬((Expr.bindable s3.nextId MLType.index).eid = s.nextId)
        from by
          show ¬(s3.nextId = s.nextId)
          rw [h3n']
          omega)]
    show alookup s3.ssaBindings s.nextId = _
    rw [h3loc s.nextId (by rw [h2n']; omega)]
    exact hv2
  · rw [h3n']
  · rw [h5b, alookup_cons,
      if_pos (show (Expr.bindable s3.nextId MLType.index).eid =
        s.nextId + 3 + 3 * shape.length from h3n')]
    rw [show ({ s3 with nextId := s3.nextId + 1 } : EmitterState).nextId + 1 =
      s.nextId + 5 + 3 * shape.length from by
        show s3.nextId + 1 + 1 = s.nextId + 5 + 3 * shape.length
        omega]
  · intro j d hj
    have hjlt : j < shape.length := (List.get?_eq_some.mp hj).1
    constructor
    · have hg := hmk2get j hjlt
      rw [hg, h2n']
    · have hb3 := h3bind j d hj
      rw [h2n'] at hb3
      rw [h5b, alookup_cons,
        if_neg (show ¬((Expr.bindable s3.nextId MLType.index).eid =
          s.nextId + 3 + j) from by
            show ¬(s3.nextId = s.nextId + 3 + j)
            rw [h3n']
            omega)]
      show alookup s3.ssaBindings (s.nextId + 3 + j) = _
      rw [hb3,
        show s.nextId + 4 + shape.length + 2 * j =
          s.nextId + 3 + shape.length + 2 * j + 1 from by omega]
  · have hblk2 := h2blocks bd (by exact hb) (by exact hip)
    obtain ⟨emitted, h3ce, h3le, h3ge⟩ := h3blocks
      ⟨bd.args, bd.insts ++ [⟨s.nextId + 1, InstKind.constantIndex 0, [],
        some ⟨s.nextId + 2, MLType.index, some (DefKind.constantIndex 0)⟩⟩]⟩
      (by rw [h2cb]; exact hblk2)
      (by rw [h2ci]; exact hip)
    have hblk5 := h5blocks
      ⟨bd.args, (bd.insts ++ [⟨s.nextId + 1, InstKind.constantIndex 0, [],
          some ⟨s.nextId + 2, MLType.index,
            some (DefKind.constantIndex 0)⟩⟩]) ++ emitted⟩
      (by
        show getBlock s3 s3.cursorBlock = _
        rw [h3cb]
        exact h3ce)
      (by
        show s3.cursorIp = none
        rw [h3ci, h2ci]
        exact hip)
    refine ⟨emitted, ?_, h3le, ?_⟩
    · have hcb5 : ({ s3 with nextId := s3.nextId + 1 } :
          EmitterState).cursorBlock = s.cursorBlock := by
        show s3.cursorBlock = s.cursorBlock
        rw [h3cb, h2cb]
      rw [← hcb5, hblk5]
      simp only [List.append_assoc, List.singleton_append, List.cons_append,
        List.nil_append]
      rw [show s3.nextId + 1 + 1 = s.nextId + 5 + 3 * shape.length from by
            omega,
          show s3.nextId + 1 = s.nextId + 4 + 3 * shape.length from by omega]
    · intro j d hj
      have hg := h3ge j d hj
      rw [h2n'] at hg
      rw [hg,
        show s.nextId + 4 + shape.length + 2 * j =
          s.nextId + 3 + shape.length + 2 * j + 1 from by omega]

/-- Witness for C9: on a rank-3 memref of shape `(?, 4, ?)` the view
returns three copies of the zero-bound node as lower bounds, three copies
of the one-bound node as steps, and three upper-bound nodes bound to
`DimOp 0`, `ConstantIndexOp 4`, `DimOp 2` values, with the size
instructions emitted in ascending dimension order between the two
constants. -/
theorem c9_memref_view_witness :
    exViewMemRef.ty = MLType.memref [-1, 4, -1] (MLType.float 32) ∧
    keysBelow exViewState ∧
    getBlock exViewState exViewState.cursorBlock = some ⟨[], []⟩ ∧
    exViewState.cursorIp = none ∧
    (∃ lbs ubs steps s',
      makeBoundMemRefView exViewState exViewMemRef =
        some ((lbs, ubs, steps), s') ∧
      lbs = List.replicate 3 (Expr.bindable 50 MLType.index) ∧
      alookup s'.ssaBindings 50 = some (some ⟨52, MLType.index,
        some (DefKind.constantIndex 0)⟩) ∧
      steps = List.replicate 3 (Expr.bindable 62 MLType.index) ∧
      alookup s'.ssaBindings 62 = some (some ⟨64, MLType.index,
        some (DefKind.constantIndex 1)⟩) ∧
      ubs.length = 3 ∧
      (∀ j d, ([-1, 4, -1] : List Int).get? j = some d →
        ubs.get? j = some (Expr.bindable (53 + j) MLType.index) ∧
        alookup s'.ssaBindings (53 + j) =
          some (some ⟨57 + 2 * j, MLType.index,
            some (if isDynamicSize d then DefKind.dimOf j
                  else DefKind.constantIndex d)⟩)) ∧
      (∃ sizeInsts,
        getBlock s' exViewState.cursorBlock = some ⟨[], [] ++
          (⟨51, InstKind.constantIndex 0, [],
              some ⟨52, MLType.index, some (DefKind.constantIndex 0)⟩⟩ ::
            (sizeInsts ++
             [⟨63, InstKind.constantIndex 1, [],
                some ⟨64, MLType.index, some (DefKind.constantIndex 1)⟩⟩]))⟩ ∧
        sizeInsts.length = 3 ∧
        (∀ j d, ([-1, 4, -1] : List Int).get? j = some d →
          sizeInsts.get? j = some ⟨56 + 2 * j,
            (if isDynamicSize d then InstKind.dim j
             else InstKind.constantIndex d),
            (if isDynamicSize d then [100] else []),
            some ⟨57 + 2 * j, MLType.index,
              some (if isDynamicSize d then DefKind.dimOf j
                    else DefKind.constantIndex d)⟩⟩))) :=
  ⟨rfl, (by intro p hp; cases hp), rfl, rfl,
   c9_memref_view exViewState exViewMemRef [-1, 4, -1] (MLType.float 32)
     ⟨[], []⟩ rfl (by intro p hp; cases hp) rfl rfl⟩

end EDSC
